import Mathlib

/-!
Verification of the monana media-archival pipeline (Rust sources under src/).

The Rust code is shallowly embedded: pure fragments become Lean functions,
machine integers become Nat/Int (with explicit wrap-around where a cast or an
overflow matters), f64 coordinate arithmetic is modelled over the exact
rationals (the operations the properties depend on - comparison with 0.0,
negation, division of small integers - are exact in IEEE double as well),
and every external collaborator (EXIF parser, MIME sniffer, filesystem,
offline geocoder database, embedded expression engine) is an explicit input
of the embedded function.

Note on src/metadata/context.rs: that file in the tree is a stale revision
(its MediaContext has a `media` block and lacks `meta`, `type` and `special`);
the shape actually used by extractor.rs, template/mod.rs and pipeline/mod.rs
is the one embedded here, with TimeContext / SpaceContext / SourceContext
taken from context.rs.
-/

namespace Monana

/-- Subset of rhai Dynamic values the program stores in `meta`
(extractor.rs inserts 64-bit integers, doubles and strings; the template
expander additionally handles booleans). -/
inductive DynValue where
  | int : Int → DynValue
  | float : Rat → DynValue
  | str : String → DynValue
  | bool : Bool → DynValue
deriving DecidableEq

/-- Model of chrono DateTime(Utc) through its civil (proleptic Gregorian)
components in UTC; this is exactly the information the program's formatting
calls (%Y %m %d %H %M %S %B %A) consume. -/
structure DateTimeUtc where
  year : Int
  month : Nat
  day : Nat
  hour : Nat
  minute : Nat
  second : Nat
deriving DecidableEq

/-- TimeContext from src/metadata/context.rs. -/
structure TimeContext where
  yyyy : String
  mm : String
  dd : String
  hh : String
  min : String
  ss : String
  month_name : String
  weekday : String
  timestamp : Option DateTimeUtc
deriving DecidableEq

/-- SpaceContext from src/metadata/context.rs; lat/lon (f64) are modelled as
exact rationals. -/
structure SpaceContext where
  country : String
  country_code : String
  state : String
  city : String
  district : String
  road : String
  lat : Rat
  lon : Rat
  altitude : Option Rat
deriving DecidableEq

/-- SourceContext from src/metadata/context.rs. -/
structure SourceContext where
  path : String
  name : String
  extension : String
  original : String
  size : Nat
deriving DecidableEq

/-- The special block referenced by template/mod.rs (md5, md5_short, count). -/
structure SpecialContext where
  md5 : String
  md5_short : String
  count : Nat
deriving DecidableEq

/-- MediaContext as used by extractor.rs, template/mod.rs and
pipeline/mod.rs; `meta` (a Rust HashMap) is modelled as an association list
with unique keys via `metaInsert`/`metaLookup`. -/
structure MediaContext where
  time : TimeContext
  space : SpaceContext
  source : SourceContext
  type : String
  meta : List (String × DynValue)
  special : SpecialContext
deriving DecidableEq

/-- Rust Default for TimeContext: empty strings and no instant. -/
def emptyTimeContext : TimeContext :=
  { yyyy := "", mm := "", dd := "", hh := "", min := "", ss := "",
    month_name := "", weekday := "", timestamp := none }

/-- Rust Default for SpaceContext: empty strings, 0.0 coordinates. -/
def emptySpaceContext : SpaceContext :=
  { country := "", country_code := "", state := "", city := "",
    district := "", road := "", lat := 0, lon := 0, altitude := none }

/-- Rust Default for SourceContext. -/
def emptySourceContext : SourceContext :=
  { path := "", name := "", extension := "", original := "", size := 0 }

/-- Rust Default for the special block. -/
def emptySpecialContext : SpecialContext :=
  { md5 := "", md5_short := "", count := 0 }

/-- MediaContext::default(). -/
def emptyMediaContext : MediaContext :=
  { time := emptyTimeContext, space := emptySpaceContext,
    source := emptySourceContext, type := "", meta := [],
    special := emptySpecialContext }

/-- HashMap lookup on the association-list model of `meta`. -/
def metaLookup (m : List (String × DynValue)) (k : String) : Option DynValue :=
  (m.find? (fun p => p.1 == k)).map (fun p => p.2)

/-- HashMap contains_key. -/
def metaContains (m : List (String × DynValue)) (k : String) : Bool :=
  m.any (fun p => p.1 == k)

/-- HashMap insert (replaces the value of an existing key, else appends). -/
def metaInsert (m : List (String × DynValue)) (k : String) (v : DynValue) :
    List (String × DynValue) :=
  if metaContains m k then m.map (fun p => if p.1 == k then (k, v) else p)
  else m ++ [(k, v)]

/-- Zero-pad a component to two digits, as chrono %m %d %H %M %S do for the
in-range values the program produces. -/
def pad2 (n : Nat) : String :=
  if n < 10 then "0" ++ toString n else toString n

/-- Zero-pad to four digits. -/
def pad4 (n : Nat) : String :=
  if n < 10 then "000" ++ toString n
  else if n < 100 then "00" ++ toString n
  else if n < 1000 then "0" ++ toString n
  else toString n

/-- chrono %Y: years 0-9999 zero-padded to four digits, larger years with an
explicit sign, negative years with a minus sign. -/
def formatYear (y : Int) : String :=
  if y < 0 then "-" ++ pad4 y.natAbs
  else if 9999 < y then "+" ++ toString y.natAbs
  else pad4 y.natAbs

/-- chrono %B (English month name). -/
def monthName (m : Nat) : String :=
  match m with
  | 1 => "January" | 2 => "February" | 3 => "March" | 4 => "April"
  | 5 => "May" | 6 => "June" | 7 => "July" | 8 => "August"
  | 9 => "September" | 10 => "October" | 11 => "November" | 12 => "December"
  | _ => ""

/-- Days since the Unix epoch of a civil date (Howard Hinnant's days-from-civil
algorithm, the standard proleptic-Gregorian day count chrono agrees with). -/
def daysFromCivil (y : Int) (m d : Nat) : Int :=
  let yAdj : Int := if m ≤ 2 then y - 1 else y
  let era : Int := (if 0 ≤ yAdj then yAdj else yAdj - 399).tdiv 400
  let yoe : Nat := (yAdj - era * 400).toNat
  let mp : Nat := (m + 9) % 12
  let doy : Nat := (153 * mp + 2) / 5 + d - 1
  let doe : Nat := yoe * 365 + yoe / 4 - yoe / 100 + doy
  era * 146097 + (doe : Int) - 719468

/-- chrono %A (English weekday name); the Unix epoch day 0 was a Thursday. -/
def weekdayName (dt : DateTimeUtc) : String :=
  let idx : Nat := ((daysFromCivil dt.year dt.month dt.day + 4).emod 7).toNat
  [ "Sunday", "Monday", "Tuesday", "Wednesday", "Thursday", "Friday",
    "Saturday" ].getD idx ""

/-- create_time_context from src/metadata/extractor.rs: the full time block
derived from one UTC instant. -/
def createTimeContext (dt : DateTimeUtc) : TimeContext :=
  { yyyy := formatYear dt.year
    mm := pad2 dt.month
    dd := pad2 dt.day
    hh := pad2 dt.hour
    min := pad2 dt.minute
    ss := pad2 dt.second
    month_name := monthName dt.month
    weekday := weekdayName dt
    timestamp := some dt }

/-- chrono timestamp_millis() of a civil UTC instant followed by the Rust
`as u64` cast (wrap-around modulo 2^64, relevant only to pre-1970 instants). -/
def toMillisU64 (dt : DateTimeUtc) : Nat :=
  ((daysFromCivil dt.year dt.month dt.day * 86400000
    + (dt.hour * 3600000 + dt.minute * 60000 + dt.second * 1000 : Nat)).emod
      (2 ^ 64)).toNat

/-- LocationPoint from src/metadata/location_history.rs (u64 timestamp,
i32 E7 coordinates). -/
structure LocationPoint where
  timestamp_ms : Nat
  latitude_e7 : Int
  longitude_e7 : Int
deriving DecidableEq

/-- The sortedness invariant documented on LocationHistory.data: timestamps
are non-decreasing. -/
def tsSorted (l : List LocationPoint) : Prop :=
  l.Pairwise (fun p q => p.timestamp_ms ≤ q.timestamp_ms)

instance (l : List LocationPoint) : Decidable (tsSorted l) := by
  unfold tsSorted; infer_instance

/-- Timestamp key of the element at an index (0 when out of range; the
embedded search only reads in-range indices). -/
def tsAt (l : List LocationPoint) (i : Nat) : Nat :=
  match l[i]? with
  | some p => p.timestamp_ms
  | none => 0

/-- Core loop of Rust slice::binary_search_by (the shape shipped since 1.52:
halve the interval, comparing the element at left + size / 2), written with a
structural fuel so it evaluates by rfl; fuel ≥ right - left suffices because
every iteration shrinks the interval. Returns .ok index on an exact key hit
and .error insertion-point otherwise. -/
def bsLoopAux (l : List LocationPoint) (t : Nat) :
    Nat → Nat → Nat → Except Nat Nat
  | 0, left, _ => .error left
  | fuel + 1, left, right =>
    if left < right then
      let mid := left + (right - left) / 2
      if tsAt l mid < t then bsLoopAux l t fuel (mid + 1) right
      else if t < tsAt l mid then bsLoopAux l t fuel left mid
      else .ok mid
    else .error left

/-- binary_search_by_key(&target, |p| p.timestamp_ms) over the whole list. -/
def binarySearchTs (l : List LocationPoint) (t : Nat) : Except Nat Nat :=
  bsLoopAux l t l.length 0 l.length

/-- find_closest_points from src/metadata/location_history.rs: exact hit
returns the same point twice; otherwise the neighbours of the insertion
point. -/
def find_closest_points (l : List LocationPoint) (t : Nat) :
    Option LocationPoint × Option LocationPoint :=
  if l.isEmpty then (none, none)
  else
    match binarySearchTs l t with
    | .ok index => (l[index]?, l[index]?)
    | .error index =>
      (if 0 < index then l[index - 1]? else none, l[index]?)

/-- Candidate selection of the location-history fallback
(src/metadata/extractor.rs lines 323-360): u64 saturating_sub is Nat
subtraction; a candidate is kept when its delta is at most the bound, the
closer of two acceptable candidates wins, and a tie keeps `before`. -/
def selectHistoryPoint (before after : Option LocationPoint)
    (target bound : Nat) : Option LocationPoint :=
  match before, after with
  | some b, some a =>
    let diffBefore := target - b.timestamp_ms
    let diffAfter := a.timestamp_ms - target
    if diffBefore ≤ bound ∧ diffAfter ≤ bound then
      if diffBefore ≤ diffAfter then some b else some a
    else if diffBefore ≤ bound then some b
    else if diffAfter ≤ bound then some a
    else none
  | some b, none =>
    if target - b.timestamp_ms ≤ bound then some b else none
  | none, some a =>
    if a.timestamp_ms - target ≤ bound then some a else none
  | none, none => none

/-- One activity entry of the Takeout JSON (only its timestamp is read). -/
structure TakeoutActivity where
  timestampMs : Nat
deriving DecidableEq

/-- One outer location entry of the Takeout JSON after serde parsing
(timestampMs strings already parsed to u64 by the deserializer). -/
structure TakeoutLocation where
  timestampMs : Nat
  latitudeE7 : Int
  longitudeE7 : Int
  activity : Option (List TakeoutActivity)
deriving DecidableEq

/-- The parsed root object of the Takeout JSON. -/
structure TakeoutRoot where
  locations : List TakeoutLocation
deriving DecidableEq

/-- Point accumulation of LocationHistory::from_json_file: one point per
outer location, plus one synthetic point per nested activity reusing the
outer coordinates, in file order. -/
def buildPoints (root : TakeoutRoot) : List LocationPoint :=
  root.locations.flatMap (fun loc =>
    ⟨loc.timestampMs, loc.latitudeE7, loc.longitudeE7⟩ ::
      (loc.activity.getD []).map (fun act =>
        ⟨act.timestampMs, loc.latitudeE7, loc.longitudeE7⟩))

/-- from_json_file after parsing: accumulate the points and sort by
timestamp. Rust sort_unstable uses the Ord instance, which compares only
timestamp_ms; any sort by that key models it (ties carry identical
coordinates within a location group, as the source comments note). -/
def from_json_data (root : TakeoutRoot) : List LocationPoint :=
  (buildPoints root).mergeSort (fun p q => p.timestamp_ms ≤ q.timestamp_ms)

/-- Numeric value of a list of ASCII digits. -/
def digitsToNat (l : List Char) : Nat :=
  l.foldl (fun a c => a * 10 + (c.toNat - 48)) 0

/-- Leap-year test of the proleptic Gregorian calendar (chrono). -/
def isLeapYear (y : Int) : Bool :=
  (y % 4 == 0 && y % 100 != 0) || y % 400 == 0

/-- Length of a month. -/
def daysInMonth (y : Int) (m : Nat) : Nat :=
  match m with
  | 1 => 31 | 2 => if isLeapYear y then 29 else 28 | 3 => 31 | 4 => 30
  | 5 => 31 | 6 => 30 | 7 => 31 | 8 => 31 | 9 => 30 | 10 => 31
  | 11 => 30 | 12 => 31
  | _ => 0

/-- chrono NaiveDate::from_ymd_opt success condition (the extractor only
calls it for years already range-checked into [1900, 2100], far inside
chrono's representable years). -/
def validDate (y : Int) (m d : Nat) : Bool :=
  1 ≤ m && m ≤ 12 && 1 ≤ d && d ≤ daysInMonth y m

/-- Shared validation of both filename branches in
extract_date_from_filename: range-check year, month and day, then
from_ymd_opt and and_hms_opt(0,0,0), producing a midnight UTC instant. -/
def dateFromYmd (y : Int) (m d : Nat) : Option DateTimeUtc :=
  if 1900 ≤ y ∧ y ≤ 2100 ∧ 1 ≤ m ∧ m ≤ 12 ∧ 1 ≤ d ∧ d ≤ 31 then
    if validDate y m d then some ⟨y, m, d, 0, 0, 0⟩ else none
  else none

/-- Window check of the eight-consecutive-digits branch: the first eight
characters must all be ASCII digits and split as YYYYMMDD into a valid
in-range date. -/
def try8 (w : List Char) : Option DateTimeUtc :=
  if w.length = 8 ∧ w.all Char.isDigit then
    dateFromYmd (digitsToNat (w.take 4)) (digitsToNat ((w.drop 4).take 2))
      (digitsToNat (w.drop 6))
  else none

/-- The eight-consecutive-digits loop of extract_date_from_filename: slide a
window over the characters and return the first valid YYYYMMDD hit. -/
def scan8 : List Char → Option DateTimeUtc
  | [] => none
  | c :: rest =>
    if 8 ≤ (c :: rest).length then
      match try8 ((c :: rest).take 8) with
      | some dt => some dt
      | none => scan8 rest
    else none

/-- Rust str::split over a set of separator characters: every separator
occurrence cuts, empty fields included, and the result is never empty. -/
def splitChars (isSep : Char → Bool) : List Char → List (List Char)
  | [] => [[]]
  | c :: rest =>
    match splitChars isSep rest with
    | [] => [[]]
    | g :: gs => if isSep c then [] :: g :: gs else (c :: g) :: gs

/-- Rust u32::from_str: an optional leading plus sign, then one or more
ASCII digits, rejecting values beyond u32::MAX. -/
def parseU32 (s : String) : Option Nat :=
  let l := match s.data with
    | '+' :: t => t
    | t => t
  if l ≠ [] ∧ l.all Char.isDigit then
    if digitsToNat l < 2 ^ 32 then some (digitsToNat l) else none
  else none

/-- Rust i32::from_str: an optional sign, then one or more ASCII digits,
rejecting values outside the i32 range. -/
def parseI32 (s : String) : Option Int :=
  match s.data with
  | '-' :: t =>
    if t ≠ [] ∧ t.all Char.isDigit then
      if digitsToNat t ≤ 2 ^ 31 then some (-(digitsToNat t : Int)) else none
    else none
  | '+' :: t =>
    if t ≠ [] ∧ t.all Char.isDigit then
      if digitsToNat t < 2 ^ 31 then some (digitsToNat t : Int) else none
    else none
  | t =>
    if t ≠ [] ∧ t.all Char.isDigit then
      if digitsToNat t < 2 ^ 31 then some (digitsToNat t : Int) else none
    else none

/-- The separator branch of extract_date_from_filename: only entered when
the basename contains a minus sign; the basename is then split on minus,
space and dot together and the first three fields are parsed as year, month
and day. -/
def dashDate (filename : String) : Option DateTimeUtc :=
  if filename.data.contains '-' then
    match splitChars (fun c => c == '-' || c == ' ' || c == '.') filename.data with
    | p0 :: p1 :: p2 :: _ =>
      match parseI32 (String.mk p0), parseU32 (String.mk p1),
          parseU32 (String.mk p2) with
      | some y, some m, some d => dateFromYmd y m d
      | _, _, _ => none
    | _ => none
  else none

/-- extract_date_from_filename from src/metadata/extractor.rs, applied to
the basename: the eight-digit scan first, then the separator branch. -/
def extract_date_from_filename (filename : String) : Option DateTimeUtc :=
  match scan8 filename.data with
  | some dt => some dt
  | none => dashDate filename

/-- Character class [A-Za-z_] opening an identifier of the template regex. -/
def isIdentStartChar (c : Char) : Bool :=
  c.isAlpha || c == '_'

/-- Character class [A-Za-z0-9_] continuing an identifier. -/
def isIdentBodyChar (c : Char) : Bool :=
  c.isAlphanum || c == '_'

/-- Deterministic matcher for the template placeholder regex
ident(.ident)* followed by a closing brace, started just after an opening
brace. Accumulates the dotted name and counts the consumed characters
(closing brace included); identifier characters, the dot and the closing
brace are disjoint classes, so this machine decides exactly the regex of
template/mod.rs. -/
def matchVarAux : List Char → List Char → Nat → Bool → Option (String × Nat)
  | [], _, _, _ => none
  | c :: rest, acc, n, expectStart =>
    if expectStart then
      if isIdentStartChar c then matchVarAux rest (c :: acc) (n + 1) false
      else none
    else if isIdentBodyChar c then matchVarAux rest (c :: acc) (n + 1) false
    else if c == '.' then matchVarAux rest (c :: acc) (n + 1) true
    else if c == '\x7d' then some (String.mk acc.reverse, n + 1)
    else none

/-- Attempt a placeholder match at the current position (cursor just past an
opening brace). -/
def matchVar (l : List Char) : Option (String × Nat) :=
  matchVarAux l [] 0 true

/-- fmtF64 stands in for the default Display formatter of f64 used for
space.lat and space.lon; its exact digit output is not modelled (floating
formatting), only that the resolver applies it to the numeric field. -/
def fmtF64 (q : Rat) : String :=
  if q.den = 1 then toString q.num
  else toString q.num ++ "/" ++ toString q.den

/-- dynamic_to_string from src/template/mod.rs: strings pass through,
integers print plainly, floats drop the fraction when integral, booleans
print true/false. -/
def dynamicToString (v : DynValue) : String :=
  match v with
  | .str s => s
  | .int i => toString i
  | .float f => if f.den = 1 then toString f.num else fmtF64 f
  | .bool b => if b then "true" else "false"

/-- resolve_variable from src/template/mod.rs: split the dotted name on the
dot character (Rust split('.')) and dispatch on the parts. The space arm has
no altitude case in the source. -/
def resolveVariable (varName : String) (ctx : MediaContext) : Option String :=
  match (splitChars (fun c => c == '.') varName.data).map String.mk with
  | ["time", f] =>
    match f with
    | "yyyy" => some ctx.time.yyyy
    | "mm" => some ctx.time.mm
    | "dd" => some ctx.time.dd
    | "hh" => some ctx.time.hh
    | "min" => some ctx.time.min
    | "ss" => some ctx.time.ss
    | "month_name" => some ctx.time.month_name
    | "weekday" => some ctx.time.weekday
    | _ => none
  | ["space", f] =>
    match f with
    | "country" => some ctx.space.country
    | "country_code" => some ctx.space.country_code
    | "state" => some ctx.space.state
    | "city" => some ctx.space.city
    | "district" => some ctx.space.district
    | "road" => some ctx.space.road
    | "lat" => some (fmtF64 ctx.space.lat)
    | "lon" => some (fmtF64 ctx.space.lon)
    | _ => none
  | ["source", f] =>
    match f with
    | "path" => some ctx.source.path
    | "name" => some ctx.source.name
    | "extension" => some ctx.source.extension
    | "original" => some ctx.source.original
    | "size" => some (toString ctx.source.size)
    | _ => none
  | ["special", f] =>
    match f with
    | "md5" => some ctx.special.md5
    | "md5_short" => some ctx.special.md5_short
    | "count" => some (toString ctx.special.count)
    | _ => none
  | ["type"] => some ctx.type
  | ["meta", tag] => (metaLookup ctx.meta tag).map dynamicToString
  | _ => none

/-- Replacement text of one matched placeholder: the resolved value, or the
unknown-reference literal. -/
def renderVar (ctx : MediaContext) (varName : String) : List Char :=
  match resolveVariable varName ctx with
  | some v => v.data
  | none => ("\x7bunknown:" ++ varName ++ "\x7d").data

/-- Single left-to-right scan of Regex::replace_all: at every opening brace
try the placeholder pattern; on a match emit the replacement and continue
after the match (replacements are never rescanned); otherwise emit the
character and continue at the next position. Fuel ≥ input length makes the
recursion structural. -/
def scanTemplateAux (ctx : MediaContext) : Nat → List Char → List Char
  | 0, s => s
  | fuel + 1, s =>
    match s with
    | [] => []
    | c :: t =>
      if c == '\x7b' then
        match matchVar t with
        | some (varName, n) =>
          renderVar ctx varName ++ scanTemplateAux ctx fuel (t.drop n)
        | none => c :: scanTemplateAux ctx fuel t
      else c :: scanTemplateAux ctx fuel t

/-- apply_template from src/template/mod.rs; the source function always
returns Ok. -/
def apply_template (template : String) (ctx : MediaContext) :
    Except String String :=
  .ok (String.mk (scanTemplateAux ctx template.data.length template.data))

/-- One piece of a template: a literal character or a placeholder name. -/
inductive Segment where
  | lit : Char → Segment
  | var : String → Segment
deriving DecidableEq

/-- Context-independent decomposition of a template by the same scan as
scanTemplateAux; used to state that expansion is a single non-recursive
pass. -/
def parseSegmentsAux : Nat → List Char → List Segment
  | 0, s => s.map Segment.lit
  | fuel + 1, s =>
    match s with
    | [] => []
    | c :: t =>
      if c == '\x7b' then
        match matchVar t with
        | some (varName, n) => .var varName :: parseSegmentsAux fuel (t.drop n)
        | none => .lit c :: parseSegmentsAux fuel t
      else .lit c :: parseSegmentsAux fuel t

/-- Template decomposition with adequate fuel. -/
def parseSegments (l : List Char) : List Segment :=
  parseSegmentsAux l.length l

/-- Rendering of one segment against a context. -/
def renderSeg (ctx : MediaContext) : Segment → List Char
  | .lit c => [c]
  | .var varName => renderVar ctx varName

/-- Rust str::replace (all non-overlapping occurrences, scanning left to
right, the replacement text never rescanned), with structural fuel; the
program only uses the non-empty patterns "\x7bsource\x7d" and
"\x7bdestination\x7d". -/
def replaceAllAux : Nat → List Char → List Char → List Char → List Char
  | 0, s, _, _ => s
  | fuel + 1, s, pat, rep =>
    match s with
    | [] => []
    | c :: t =>
      if pat ≠ [] ∧ pat.isPrefixOf (c :: t) then
        rep ++ replaceAllAux fuel (t.drop (pat.length - 1)) pat rep
      else c :: replaceAllAux fuel t pat rep

/-- str::replace over whole strings. -/
def replaceAll (s pat rep : List Char) : List Char :=
  replaceAllAux s.length s pat rep

/-- Command-string construction of execute_custom_command from
src/actions/mod.rs: replace every occurrence of the source placeholder,
then every occurrence of the destination placeholder in the result; the
resulting string is what gets handed to sh -c. -/
def buildCustomCommand (command source destination : String) : String :=
  String.mk (replaceAll
    (replaceAll command.data "\x7bsource\x7d".data source.data)
    "\x7bdestination\x7d".data destination.data)

/-- ActionSpec from src/pipeline/mod.rs. -/
inductive ActionSpec where
  | move | copy | symlink | hardlink
  | command : String → ActionSpec
deriving DecidableEq

/-- Rule from src/pipeline/mod.rs. -/
structure Rule where
  condition : String
  template : String
  action : ActionSpec
deriving DecidableEq

/-- The rhai Scope pushed by evaluate_condition: three object maps, the type
string and the meta map. -/
structure RhaiScope where
  time : List (String × DynValue)
  space : List (String × DynValue)
  source : List (String × DynValue)
  type : String
  meta : List (String × DynValue)
deriving DecidableEq

/-- Rust `as i64` on a u64 value (wrap into the signed 64-bit range). -/
def asI64 (n : Nat) : Int :=
  if n % 2 ^ 64 < 2 ^ 63 then (n % 2 ^ 64 : Int)
  else (n % 2 ^ 64 : Int) - 2 ^ 64

/-- Scope construction of evaluate_condition (src/pipeline/mod.rs): the
exact keys pushed for time, space (altitude only when present), source,
type and meta. -/
def buildScope (ctx : MediaContext) : RhaiScope :=
  { time := [("yyyy", .str ctx.time.yyyy), ("mm", .str ctx.time.mm),
      ("dd", .str ctx.time.dd), ("month_name", .str ctx.time.month_name),
      ("weekday", .str ctx.time.weekday), ("hh", .str ctx.time.hh),
      ("min", .str ctx.time.min), ("ss", .str ctx.time.ss)]
    space := [("country", .str ctx.space.country),
      ("country_code", .str ctx.space.country_code),
      ("state", .str ctx.space.state), ("city", .str ctx.space.city),
      ("district", .str ctx.space.district), ("road", .str ctx.space.road),
      ("lat", .float ctx.space.lat), ("lon", .float ctx.space.lon)] ++
      (match ctx.space.altitude with
       | some a => [("altitude", DynValue.float a)]
       | none => [])
    source := [("path", .str ctx.source.path), ("name", .str ctx.source.name),
      ("extension", .str ctx.source.extension),
      ("original", .str ctx.source.original),
      ("size", .int (asI64 ctx.source.size))]
    type := ctx.type
    meta := ctx.meta }

/-- rhai Dynamic::as_bool: only an actual boolean converts. -/
def dynAsBool (v : DynValue) : Option Bool :=
  match v with
  | .bool b => some b
  | _ => none

/-- evaluate_condition from src/pipeline/mod.rs, parametrised by the
embedded rhai engine (an external collaborator): the engine receives the
scope built from the context and the condition text; an engine error is
wrapped and propagated, and a non-boolean result becomes false via
as_bool().unwrap_or(false). -/
def evaluate_condition (engineEval : RhaiScope → String → Except String DynValue)
    (condition : String) (ctx : MediaContext) : Except String Bool :=
  match engineEval (buildScope ctx) condition with
  | .error e => .error ("Failed to evaluate condition: " ++ e)
  | .ok d => .ok ((dynAsBool d).getD false)

/-- process_rule from src/pipeline/mod.rs: a true condition expands the
template into the destination; condition errors propagate. -/
def process_rule (engineEval : RhaiScope → String → Except String DynValue)
    (rule : Rule) (ctx : MediaContext) :
    Except String (Option (String × ActionSpec)) :=
  match evaluate_condition engineEval rule.condition ctx with
  | .error e => .error e
  | .ok true =>
    match apply_template rule.template ctx with
    | .ok destination => .ok (some (destination, rule.action))
    | .error e => .error e
  | .ok false => .ok none

/-- Modelled from the spec: the pipeline orchestrator of section 4.6
(process_recursive) is not present under src/ (main.rs is an earlier
prototype that does not use the rule engine); per the spec, a rule whose
evaluation fails is treated as non-matching and scanning continues, so an
errored process_rule outcome contributes no match. -/
def ruleErrorTreatedAsNoMatch
    (outcome : Except String (Option (String × ActionSpec))) :
    Option (String × ActionSpec) :=
  match outcome with
  | .error _ => none
  | .ok v => v

/-- One nom_exif unsigned rational (u32 numerator and denominator). -/
structure URat where
  num : Nat
  den : Nat
deriving DecidableEq

/-- nom_exif GpsInfo as consumed by the extractor: degrees/minutes/seconds
rationals with cardinal reference characters and an altitude rational. -/
structure GpsRawInfo where
  latitude : URat × URat × URat
  latitudeRef : Char
  longitude : URat × URat × URat
  longitudeRef : Char
  altitude : URat
deriving DecidableEq

/-- Outcome of one EXIF parse of a file, abstracting the external nom_exif
parser: the GPS sub-IFD when present, the parse outcomes of the
DateTimeOriginal/CreateDate entries in iteration order (none when the entry
text failed to parse), and the converted dynamic values of all entries in
iteration order. The single tag-pass iteration of the source is split into
its two independent effects (meta inserts and time updates). -/
structure ExifData where
  gps : Option GpsRawInfo
  timeEvents : List (Option DateTimeUtc)
  metaEntries : List (String × DynValue)
deriving DecidableEq

/-- The path components the extractor reads (camino accessors; each is None
exactly when the accessor returns None) together with the stat size. -/
structure PathInfo where
  parent : Option String
  stem : Option String
  extension : Option String
  fileName : Option String
  size : Nat

/-- Record returned by the offline reverse-geocoder database for a query
(external collaborator; search is total and always yields the nearest
record). -/
structure GeoRecord where
  name : String
  cc : String
  admin1 : String
deriving DecidableEq

/-- Environment of one extract_metadata run: every external fact the
extractor consumes. exif = none models every failing path of
extract_exif_metadata (no EXIF, MediaSource or parse error), whose error the
caller swallows. -/
structure ExtractEnv where
  path : PathInfo
  mime : Option String
  exif : Option ExifData
  imageDims : Option (Nat × Nat)
  fsCreated : Option DateTimeUtc
  geoDb : Rat → Rat → GeoRecord

/-- extract_source_info from src/metadata/extractor.rs. -/
def extract_source_info (p : PathInfo) : SourceContext :=
  { path := p.parent.getD "."
    name := p.stem.getD "unknown"
    extension := p.extension.getD ""
    original := p.fileName.getD "unknown"
    size := p.size }

/-- detect_media_type from src/metadata/extractor.rs over the sniffed MIME
string. -/
def detect_media_type (mime : Option String) : String :=
  match mime with
  | some m =>
    if "image/".data.isPrefixOf m.data then "image"
    else if "video/".data.isPrefixOf m.data then "video"
    else "unknown"
  | none => "unknown"

/-- convert_gps_coordinate from src/metadata/extractor.rs: rationals to
signed decimal degrees (f64 arithmetic modelled exactly over the rationals;
a zero denominator, NaN in f64, is not modelled). -/
def convert_gps_coordinate (c : URat × URat × URat) (negative : Bool) : Rat :=
  let degrees : Rat := (c.1.num : Rat) / (c.1.den : Rat)
  let minutes : Rat := (c.2.1.num : Rat) / (c.2.1.den : Rat)
  let seconds : Rat := (c.2.2.num : Rat) / (c.2.2.den : Rat)
  let decimal := degrees + minutes / 60 + seconds / 3600
  if negative then -decimal else decimal

/-- reverse_geocode from src/metadata/location.rs: always Ok; city from the
record name, country and country_code both from the record country code,
state from admin1, remaining fields defaulted, coordinates echoed. -/
def reverse_geocode (geoDb : Rat → Rat → GeoRecord) (latitude longitude : Rat) :
    SpaceContext :=
  { emptySpaceContext with
      city := (geoDb latitude longitude).name
      country := (geoDb latitude longitude).cc
      country_code := (geoDb latitude longitude).cc
      state := (geoDb latitude longitude).admin1
      lat := latitude
      lon := longitude }

/-- extract_exif_metadata from src/metadata/extractor.rs: none on any parse
failure; otherwise the GPS pass (convert, record altitude, reverse-geocode
preserving the computed coordinates - the geocoder never fails) followed by
the tag pass (meta inserts; each successfully parsed
DateTimeOriginal/CreateDate entry overwrites the whole time block, the last
one winning). -/
def extract_exif_metadata (env : ExtractEnv) : Option MediaContext :=
  env.exif.map (fun e =>
    let afterGps : MediaContext :=
      match e.gps with
      | some g =>
        let lat := convert_gps_coordinate g.latitude (g.latitudeRef == 'S')
        let lon := convert_gps_coordinate g.longitude (g.longitudeRef == 'W')
        let alt : Option Rat := some ((g.altitude.num : Rat) / (g.altitude.den : Rat))
        let loc := reverse_geocode env.geoDb lat lon
        { emptyMediaContext with
            space := { loc with lat := lat, lon := lon, altitude := alt } }
      | none => emptyMediaContext
    let newMeta := e.metaEntries.foldl (fun m kv => metaInsert m kv.1 kv.2) []
    let newTime := e.timeEvents.foldl
      (fun t ev =>
        match ev with
        | some dt => createTimeContext dt
        | none => t) afterGps.time
    { afterGps with meta := newMeta, time := newTime })

/-- The candidate query and selection of the location-history fallback in
apply_fallbacks (src/metadata/extractor.rs): the photo timestamp in
milliseconds (u64 cast), the threshold max_hours * 60 * 60 * 1000 (48 hours
when unset, u64 arithmetic), the find_closest_points candidates, then the
selection. -/
def locationHistorySelection (hist : Option (List LocationPoint))
    (timestamp : Option DateTimeUtc) (maxHours : Option Nat) :
    Option LocationPoint :=
  match hist, timestamp with
  | some h, some ts =>
    let target := toMillisU64 ts
    let bound := (maxHours.getD 48 * 3600000) % 2 ^ 64
    let ba := find_closest_points h target
    selectHistoryPoint ba.1 ba.2 target bound
  | _, _ => none

/-- First fallback of apply_fallbacks (src/metadata/extractor.rs): insert
image dimensions into meta when missing. -/
def fallbackDims (env : ExtractEnv) (ctx0 : MediaContext) : MediaContext :=
  let hasW := metaContains ctx0.meta "ImageWidth" ||
    metaContains ctx0.meta "ExifImageWidth"
  let hasH := metaContains ctx0.meta "ImageHeight" ||
    metaContains ctx0.meta "ExifImageHeight"
  if hasW = false ∨ hasH = false then
    match env.imageDims with
    | some (w, h) =>
      let m1 := if hasW = false then
        metaInsert ctx0.meta "ImageWidth" (.int w) else ctx0.meta
      let m2 := if hasH = false then
        metaInsert m1 "ImageHeight" (.int h) else m1
      { ctx0 with meta := m2 }
    | none => ctx0
  else ctx0

/-- Second fallback: derive the timestamp from the basename for videos that
still lack one. -/
def fallbackFilenameDate (env : ExtractEnv) (ctx1 : MediaContext) :
    MediaContext :=
  if ctx1.time.timestamp = none ∧ ctx1.type = "video" then
    match env.path.fileName.bind extract_date_from_filename with
    | some dt => { ctx1 with time := createTimeContext dt }
    | none => ctx1
  else ctx1

/-- Third fallback: the filesystem creation time when still no timestamp. -/
def fallbackFsCreated (env : ExtractEnv) (ctx2 : MediaContext) :
    MediaContext :=
  if ctx2.time.timestamp = none then
    match env.fsCreated with
    | some dt => { ctx2 with time := createTimeContext dt }
    | none => ctx2
  else ctx2

/-- Fourth fallback: when the coordinates are still (0.0, 0.0), query the
location history and on a selected point reverse-geocode its coordinates,
preserving them on the result. -/
def fallbackLocationHistory (env : ExtractEnv)
    (hist : Option (List LocationPoint)) (maxHours : Option Nat)
    (ctx3 : MediaContext) : MediaContext :=
  if ctx3.space.lat = 0 ∧ ctx3.space.lon = 0 then
    match locationHistorySelection hist ctx3.time.timestamp maxHours with
    | some p =>
      let lat : Rat := (p.latitude_e7 : Rat) / 10000000
      let lon : Rat := (p.longitude_e7 : Rat) / 10000000
      let loc := reverse_geocode env.geoDb lat lon
      { ctx3 with space := { loc with lat := lat, lon := lon } }
    | none => ctx3
  else ctx3

/-- apply_fallbacks from src/metadata/extractor.rs: the four fallbacks in
source order. -/
def apply_fallbacks (env : ExtractEnv) (hist : Option (List LocationPoint))
    (maxHours : Option Nat) (ctx0 : MediaContext) : MediaContext :=
  fallbackLocationHistory env hist maxHours
    (fallbackFsCreated env (fallbackFilenameDate env (fallbackDims env ctx0)))

/-- apply_defaults from src/metadata/extractor.rs: an empty year defaults
yyyy, mm, dd, month_name and weekday (hh, min and ss are not touched); an
empty city defaults city and country. -/
def apply_defaults (ctx : MediaContext) : MediaContext :=
  let ctx1 :=
    if ctx.time.yyyy = "" then
      { ctx with time := { ctx.time with
          yyyy := "unknown"
          mm := "00"
          dd := "00"
          month_name := "Unknown"
          weekday := "Unknown" } }
    else ctx
  if ctx1.space.city = "" then
    { ctx1 with space := { ctx1.space with
        city := "unknown"
        country := "unknown" } }
  else ctx1

/-- extract_metadata_with_location_history from src/metadata/extractor.rs:
source facts and media type, the EXIF phase (its failure swallowed), the
fallbacks, then the defaults. Only successful runs are modelled; the one
fatal path (the file cannot be opened or statted) returns no context at
all. -/
def extract_metadata_with_location_history (env : ExtractEnv)
    (hist : Option (List LocationPoint)) (maxHours : Option Nat) :
    MediaContext :=
  let base := { emptyMediaContext with
    source := extract_source_info env.path
    type := detect_media_type env.mime }
  let merged :=
    match extract_exif_metadata env with
    | some e => { base with time := e.time, space := e.space, meta := e.meta }
    | none => base
  apply_defaults (apply_fallbacks env hist maxHours merged)

/-- Time block present after the EXIF phase (none both when EXIF parsing
failed and when no datetime entry parsed). -/
def timeAfterExifPhase (env : ExtractEnv) : Option DateTimeUtc :=
  match extract_exif_metadata env with
  | some e => e.time.timestamp
  | none => none

/-- Leading run of ASCII digits and the remainder. -/
def takeDigits : List Char → List Char × List Char
  | [] => ([], [])
  | c :: rest =>
    if c.isDigit then
      let (a, b) := takeDigits rest
      (c :: a, b)
    else ([], c :: rest)

/-- Claim-side reading of the filename-date rule, transcribed from the
specification text: the basename has a prefix of the shape digits, a fixed
separator, digits, the same separator, digits, forming an in-range valid
date. -/
def specPrefixDateWith (sep : Char) (l : List Char) : Bool :=
  match takeDigits l with
  | (y, c1 :: r2) =>
    if c1 == sep then
      match takeDigits r2 with
      | (m, c2 :: r4) =>
        if c2 == sep then
          let (d, _) := takeDigits r4
          decide (y ≠ [] ∧ m ≠ [] ∧ d ≠ []) &&
            (dateFromYmd (digitsToNat y) (digitsToNat m) (digitsToNat d)).isSome
        else false
      | (_, []) => false
    else false
  | (_, []) => false

/-- Claim-side reading of the eight-consecutive-digits rule: some window of
eight consecutive characters consists of ASCII digits forming an in-range
valid YYYYMMDD date. -/
def specHas8DigitDate (l : List Char) : Bool :=
  (List.range l.length).any (fun i => (try8 ((l.drop i).take 8)).isSome)

/-- The filename-date condition exactly as the claim states it: an
eight-digit window, or a prefix parseable as YYYY-MM-DD, YYYY.MM.DD or
YYYY MM DD (year in [1900, 2100], month in [1, 12], day valid for the
month). -/
def specClaimFilenameDate (filename : String) : Bool :=
  specHas8DigitDate filename.data ||
  specPrefixDateWith '-' filename.data ||
  specPrefixDateWith '.' filename.data ||
  specPrefixDateWith ' ' filename.data

/-- The filename-date condition as the code actually implements it: an
eight-digit window anywhere, or - only when the basename contains a minus
sign - a split of the whole basename on minus, space and dot whose first
three fields parse as an in-range valid date. -/
def amendedFilenameDate (filename : String) : Bool :=
  specHas8DigitDate filename.data ||
  (filename.data.contains '-' &&
    (match splitChars (fun c => c == '-' || c == ' ' || c == '.') filename.data with
     | p0 :: p1 :: p2 :: _ =>
       (match parseI32 (String.mk p0), parseU32 (String.mk p1),
           parseU32 (String.mk p2) with
        | some y, some m, some d => (dateFromYmd y m d).isSome
        | _, _, _ => false)
     | _ => false))

/-- Absolute time delta between a target timestamp and a location point, in
milliseconds (the quantity the specification's selection rule is stated
with). -/
def absDeltaMs (t : Nat) (p : LocationPoint) : Nat :=
  if p.timestamp_ms ≤ t then t - p.timestamp_ms else p.timestamp_ms - t

lemma tsAt_eq_getElem (l : List LocationPoint) (i : Nat) (h : i < l.length) :
    tsAt l i = (l[i]).timestamp_ms := by
  simp [tsAt, List.getElem?_eq_getElem h]

lemma tsAt_mono (l : List LocationPoint) (hs : tsSorted l) (i j : Nat)
    (hij : i ≤ j) (hj : j < l.length) : tsAt l i ≤ tsAt l j := by
  rcases Nat.lt_or_ge i j with h | h
  · rw [tsAt_eq_getElem l i (Nat.lt_of_lt_of_le h (Nat.le_of_lt hj)),
      tsAt_eq_getElem l j hj]
    exact List.pairwise_iff_getElem.mp hs i j _ hj h
  · have : i = j := Nat.le_antisymm hij h
    subst this
    exact Nat.le_refl _

lemma bsLoopAux_spec (l : List LocationPoint) (t : Nat) (hs : tsSorted l) :
    ∀ (fuel left right : Nat), right - left ≤ fuel → left ≤ right →
    right ≤ l.length →
    (∀ i, i < left → tsAt l i < t) →
    (∀ i, right ≤ i → i < l.length → t < tsAt l i) →
    (∀ m, bsLoopAux l t fuel left right = .ok m →
      m < l.length ∧ tsAt l m = t) ∧
    (∀ j, bsLoopAux l t fuel left right = .error j → j ≤ l.length ∧
      (∀ i, i < j → tsAt l i < t) ∧
      (∀ i, j ≤ i → i < l.length → t < tsAt l i)) := by
  intro fuel
  induction fuel with
  | zero =>
    intro left right hlr hler hrl hlow hhigh
    have hleq : left = right := by omega
    subst hleq
    constructor
    · intro m hm
      simp [bsLoopAux] at hm
    · intro j hj
      simp [bsLoopAux] at hj
      subst hj
      exact ⟨hrl, hlow, fun i hji hil => hhigh i hji hil⟩
  | succ fuel ih =>
    intro left right hlr hler hrl hlow hhigh
    by_cases hcase : left < right
    · have hmidlt : left + (right - left) / 2 < right := by omega
      have hmidge : left ≤ left + (right - left) / 2 := by omega
      have hmidlen : left + (right - left) / 2 < l.length := by omega
      by_cases h1 : tsAt l (left + (right - left) / 2) < t
      · have heq : bsLoopAux l t (fuel + 1) left right =
            bsLoopAux l t fuel (left + (right - left) / 2 + 1) right := by
          simp [bsLoopAux, hcase, h1]
        rw [heq]
        apply ih
        · omega
        · omega
        · exact hrl
        · intro i hi
          have : tsAt l i ≤ tsAt l (left + (right - left) / 2) :=
            tsAt_mono l hs i _ (by omega) hmidlen
          omega
        · exact hhigh
      · by_cases h2 : t < tsAt l (left + (right - left) / 2)
        · have heq : bsLoopAux l t (fuel + 1) left right =
              bsLoopAux l t fuel left (left + (right - left) / 2) := by
            simp [bsLoopAux, hcase, h1, h2]
          rw [heq]
          apply ih
          · omega
          · omega
          · omega
          · exact hlow
          · intro i hi hil
            have : tsAt l (left + (right - left) / 2) ≤ tsAt l i :=
              tsAt_mono l hs _ i hi hil
            omega
        · have heq : bsLoopAux l t (fuel + 1) left right =
              .ok (left + (right - left) / 2) := by
            simp [bsLoopAux, hcase, h1, h2]
          rw [heq]
          constructor
          · intro m hm
            injection hm with hm
            subst hm
            exact ⟨hmidlen, by omega⟩
          · intro j hj
            exact absurd hj (by simp)
    · have heq : bsLoopAux l t (fuel + 1) left right = .error left := by
        simp [bsLoopAux, hcase]
      rw [heq]
      have hleq : left = right := by omega
      constructor
      · intro m hm
        exact absurd hm (by simp)
      · intro j hj
        injection hj with hj
        subst hj
        exact ⟨by omega, hlow, fun i hji hil => hhigh i (by omega) hil⟩

lemma binarySearchTs_spec (l : List LocationPoint) (t : Nat) (hs : tsSorted l) :
    (∀ m, binarySearchTs l t = .ok m → m < l.length ∧ tsAt l m = t) ∧
    (∀ j, binarySearchTs l t = .error j → j ≤ l.length ∧
      (∀ i, i < j → tsAt l i < t) ∧
      (∀ i, j ≤ i → i < l.length → t < tsAt l i)) := by
  exact bsLoopAux_spec l t hs l.length 0 l.length (by omega) (by omega)
    (Nat.le_refl _) (by omega) (by omega)

lemma mem_of_getElemOpt {l : List LocationPoint} {i : Nat} {p : LocationPoint}
    (h : l[i]? = some p) : p ∈ l ∧ tsAt l i = p.timestamp_ms := by
  rw [List.getElem?_eq_some] at h
  obtain ⟨hi, hp⟩ := h
  subst hp
  exact ⟨List.getElem_mem hi, tsAt_eq_getElem l i hi⟩

lemma find_closest_eq_of_bs_error (l : List LocationPoint) (t j : Nat)
    (hemp : l.isEmpty = false) (hbs : binarySearchTs l t = .error j) :
    find_closest_points l t =
      ((if 0 < j then l[j - 1]? else none), l[j]?) := by
  simp [find_closest_points, hemp, hbs]

lemma find_closest_eq_of_bs_ok (l : List LocationPoint) (t m : Nat)
    (hemp : l.isEmpty = false) (hbs : binarySearchTs l t = .ok m) :
    find_closest_points l t = (l[m]?, l[m]?) := by
  simp [find_closest_points, hemp, hbs]

lemma isEmpty_false_of_mem {l : List LocationPoint} {p : LocationPoint}
    (hp : p ∈ l) : l.isEmpty = false := by
  cases l with
  | nil => simp at hp
  | cons x xs => rfl

lemma find_closest_before_some (l : List LocationPoint) (t : Nat)
    (b : LocationPoint) (hs : tsSorted l)
    (h : (find_closest_points l t).1 = some b) :
    b ∈ l ∧ b.timestamp_ms ≤ t ∧
    ∀ q ∈ l, q.timestamp_ms < t → q.timestamp_ms ≤ b.timestamp_ms := by
  cases hemp : l.isEmpty with
  | true =>
    rw [List.isEmpty_iff] at hemp
    subst hemp
    simp [find_closest_points] at h
  | false =>
    rcases hbs : binarySearchTs l t with j | m
    · rw [find_closest_eq_of_bs_error l t j hemp hbs] at h
      simp only at h
      by_cases hj : 0 < j
      · rw [if_pos hj] at h
        obtain ⟨hjlen, hlow, hhigh⟩ := (binarySearchTs_spec l t hs).2 j hbs
        obtain ⟨hmem, hts⟩ := mem_of_getElemOpt h
        have hbt : b.timestamp_ms < t := by
          have := hlow (j - 1) (by omega)
          omega
        refine ⟨hmem, by omega, ?_⟩
        intro q hq hqt
        obtain ⟨i, hi, hiq⟩ := List.mem_iff_getElem.mp hq
        have htsi : tsAt l i = q.timestamp_ms := by
          rw [tsAt_eq_getElem l i hi, hiq]
        have hij : i < j := by
          by_contra hcon
          have := hhigh i (by omega) hi
          omega
        have := tsAt_mono l hs i (j - 1) (by omega) (by omega)
        omega
      · rw [if_neg hj] at h
        exact Option.noConfusion h
    · rw [find_closest_eq_of_bs_ok l t m hemp hbs] at h
      simp only at h
      obtain ⟨hmlen, hmt⟩ := (binarySearchTs_spec l t hs).1 m hbs
      obtain ⟨hmem, hts⟩ := mem_of_getElemOpt h
      exact ⟨hmem, by omega, fun q hq hqt => by omega⟩

lemma find_closest_after_some (l : List LocationPoint) (t : Nat)
    (a : LocationPoint) (hs : tsSorted l)
    (h : (find_closest_points l t).2 = some a) :
    a ∈ l ∧ t ≤ a.timestamp_ms ∧
    ∀ q ∈ l, t < q.timestamp_ms → a.timestamp_ms ≤ q.timestamp_ms := by
  cases hemp : l.isEmpty with
  | true =>
    rw [List.isEmpty_iff] at hemp
    subst hemp
    simp [find_closest_points] at h
  | false =>
    rcases hbs : binarySearchTs l t with j | m
    · rw [find_closest_eq_of_bs_error l t j hemp hbs] at h
      simp only at h
      obtain ⟨hjlen, hlow, hhigh⟩ := (binarySearchTs_spec l t hs).2 j hbs
      obtain ⟨hmem, hts⟩ := mem_of_getElemOpt h
      have hjlt : j < l.length := by
        by_contra hcon
        rw [List.getElem?_eq_none (by omega)] at h
        exact Option.noConfusion h
      have hat : t < a.timestamp_ms := by
        have := hhigh j (Nat.le_refl _) hjlt
        omega
      refine ⟨hmem, by omega, ?_⟩
      intro q hq hqt
      obtain ⟨i, hi, hiq⟩ := List.mem_iff_getElem.mp hq
      have htsi : tsAt l i = q.timestamp_ms := by
        rw [tsAt_eq_getElem l i hi, hiq]
      have hij : j ≤ i := by
        by_contra hcon
        have := hlow i (by omega)
        omega
      have := tsAt_mono l hs j i hij hi
      omega
    · rw [find_closest_eq_of_bs_ok l t m hemp hbs] at h
      simp only at h
      obtain ⟨hmlen, hmt⟩ := (binarySearchTs_spec l t hs).1 m hbs
      obtain ⟨hmem, hts⟩ := mem_of_getElemOpt h
      exact ⟨hmem, by omega, fun q hq hqt => by omega⟩

lemma find_closest_before_none (l : List LocationPoint) (t : Nat)
    (hs : tsSorted l) (h : (find_closest_points l t).1 = none) :
    ∀ q ∈ l, t < q.timestamp_ms := by
  intro q hq
  obtain ⟨i, hi, hiq⟩ := List.mem_iff_getElem.mp hq
  have htsi : tsAt l i = q.timestamp_ms := by
    rw [tsAt_eq_getElem l i hi, hiq]
  have hemp : l.isEmpty = false := isEmpty_false_of_mem hq
  rcases hbs : binarySearchTs l t with j | m
  · rw [find_closest_eq_of_bs_error l t j hemp hbs] at h
    simp only at h
    obtain ⟨hjlen, hlow, hhigh⟩ := (binarySearchTs_spec l t hs).2 j hbs
    by_cases hj : 0 < j
    · rw [if_pos hj] at h
      rw [List.getElem?_eq_getElem (by omega)] at h
      exact Option.noConfusion h
    · have := hhigh i (by omega) hi
      omega
  · rw [find_closest_eq_of_bs_ok l t m hemp hbs] at h
    simp only at h
    obtain ⟨hmlen, hmt⟩ := (binarySearchTs_spec l t hs).1 m hbs
    rw [List.getElem?_eq_getElem hmlen] at h
    exact Option.noConfusion h

lemma find_closest_after_none (l : List LocationPoint) (t : Nat)
    (hs : tsSorted l) (h : (find_closest_points l t).2 = none) :
    ∀ q ∈ l, q.timestamp_ms < t := by
  intro q hq
  obtain ⟨i, hi, hiq⟩ := List.mem_iff_getElem.mp hq
  have htsi : tsAt l i = q.timestamp_ms := by
    rw [tsAt_eq_getElem l i hi, hiq]
  have hemp : l.isEmpty = false := isEmpty_false_of_mem hq
  rcases hbs : binarySearchTs l t with j | m
  · rw [find_closest_eq_of_bs_error l t j hemp hbs] at h
    simp only at h
    obtain ⟨hjlen, hlow, hhigh⟩ := (binarySearchTs_spec l t hs).2 j hbs
    have hjlen2 : l.length ≤ j := by
      by_contra hcon
      rw [List.getElem?_eq_getElem (by omega)] at h
      exact Option.noConfusion h
    have := hlow i (by omega)
    omega
  · rw [find_closest_eq_of_bs_ok l t m hemp hbs] at h
    simp only at h
    obtain ⟨hmlen, hmt⟩ := (binarySearchTs_spec l t hs).1 m hbs
    rw [List.getElem?_eq_getElem hmlen] at h
    exact Option.noConfusion h

lemma find_closest_exact (l : List LocationPoint) (t : Nat) (hs : tsSorted l)
    (p : LocationPoint) (hp : p ∈ l) (hpt : p.timestamp_ms = t) :
    ∃ q, find_closest_points l t = (some q, some q) ∧ q ∈ l ∧
      q.timestamp_ms = t := by
  have hemp : l.isEmpty = false := isEmpty_false_of_mem hp
  rcases hbs : binarySearchTs l t with j | m
  · exfalso
    obtain ⟨hjlen, hlow, hhigh⟩ := (binarySearchTs_spec l t hs).2 j hbs
    obtain ⟨i, hi, hiq⟩ := List.mem_iff_getElem.mp hp
    have htsi : tsAt l i = t := by
      rw [tsAt_eq_getElem l i hi, hiq, hpt]
    rcases Nat.lt_or_ge i j with hij | hij
    · have := hlow i hij
      omega
    · have := hhigh i hij hi
      omega
  · obtain ⟨hmlen, hmt⟩ := (binarySearchTs_spec l t hs).1 m hbs
    refine ⟨l[m], ?_, List.getElem_mem hmlen, ?_⟩
    · rw [find_closest_eq_of_bs_ok l t m hemp hbs,
        List.getElem?_eq_getElem hmlen]
    · rw [← tsAt_eq_getElem l m hmlen]
      exact hmt

/-- C2: for every LocationHistory sorted non-decreasingly by timestamp and
every target, find_closest_points returns on an exact hit the same matching
point as both before and after; otherwise before is the immediate
predecessor (none exactly when the target precedes all points) and after the
immediate successor (none exactly when it follows all points); and whenever
both are returned, before.timestamp_ms ≤ target ≤ after.timestamp_ms. -/
theorem c2_find_closest_points_correct (l : List LocationPoint) (t : Nat)
    (hs : tsSorted l) :
    ((∃ p ∈ l, p.timestamp_ms = t) →
      ∃ q, find_closest_points l t = (some q, some q) ∧ q ∈ l ∧
        q.timestamp_ms = t) ∧
    ((∀ p ∈ l, p.timestamp_ms ≠ t) →
      (∀ b, (find_closest_points l t).1 = some b → b ∈ l ∧
        b.timestamp_ms < t ∧
        ∀ q ∈ l, q.timestamp_ms < t → q.timestamp_ms ≤ b.timestamp_ms) ∧
      ((find_closest_points l t).1 = none → ∀ q ∈ l, t < q.timestamp_ms) ∧
      (∀ a, (find_closest_points l t).2 = some a → a ∈ l ∧
        t < a.timestamp_ms ∧
        ∀ q ∈ l, t < q.timestamp_ms → a.timestamp_ms ≤ q.timestamp_ms) ∧
      ((find_closest_points l t).2 = none → ∀ q ∈ l, q.timestamp_ms < t)) ∧
    (∀ b a, find_closest_points l t = (some b, some a) →
      b.timestamp_ms ≤ t ∧ t ≤ a.timestamp_ms) := by
  refine ⟨?_, ?_, ?_⟩
  · intro ⟨p, hp, hpt⟩
    exact find_closest_exact l t hs p hp hpt
  · intro hne
    refine ⟨?_, find_closest_before_none l t hs, ?_,
      find_closest_after_none l t hs⟩
    · intro b hb
      obtain ⟨hmem, hle, hmax⟩ := find_closest_before_some l t b hs hb
      exact ⟨hmem, Nat.lt_of_le_of_ne hle (hne b hmem), hmax⟩
    · intro a ha
      obtain ⟨hmem, hle, hmin⟩ := find_closest_after_some l t a hs ha
      refine ⟨hmem, ?_, hmin⟩
      rcases Nat.lt_or_ge t a.timestamp_ms with hlt | hge
      · exact hlt
      · exact absurd (Nat.le_antisymm hge hle) (fun h => hne a hmem h)
  · intro b a hba
    have hb : (find_closest_points l t).1 = some b := by rw [hba]
    have ha : (find_closest_points l t).2 = some a := by rw [hba]
    exact ⟨(find_closest_before_some l t b hs hb).2.1,
      (find_closest_after_some l t a hs ha).2.1⟩

/-- Witness for C2 at a concrete sorted two-point history with an exact
hit. -/
theorem c2_witness :
    ∃ q, find_closest_points
        [⟨100, 1, 1⟩, ⟨200, 2, 2⟩] 200 = (some q, some q) ∧
      q ∈ [(⟨100, 1, 1⟩ : LocationPoint), ⟨200, 2, 2⟩] ∧
      q.timestamp_ms = 200 :=
  (c2_find_closest_points_correct [⟨100, 1, 1⟩, ⟨200, 2, 2⟩] 200
    (by decide)).1 ⟨⟨200, 2, 2⟩, by decide, rfl⟩

lemma absDeltaMs_before {t : Nat} {p : LocationPoint}
    (h : p.timestamp_ms ≤ t) : absDeltaMs t p = t - p.timestamp_ms := by
  simp [absDeltaMs, h]

lemma absDeltaMs_after {t : Nat} {p : LocationPoint}
    (h : t ≤ p.timestamp_ms) : absDeltaMs t p = p.timestamp_ms - t := by
  unfold absDeltaMs
  split_ifs with h2 <;> omega

/-- C1: the location-history fallback of the extractor (active when both
coordinates are 0.0, a history is configured and a timestamp is present)
accepts among the find_closest_points candidates exactly those whose
absolute delta to the photo timestamp is at most max_hours * 3,600,000
milliseconds (48 hours when max_hours is unset) - so a delta equal to the
bound is accepted and a delta one beyond is not - and among acceptable
candidates picks the smaller delta, a tie keeping before. Stated for
thresholds below the u64 wrap-around. -/
theorem c1_history_selection_correct (h : List LocationPoint)
    (ts : DateTimeUtc) (mh : Option Nat) (hs : tsSorted h)
    (hov : mh.getD 48 * 3600000 < 2 ^ 64) :
    (locationHistorySelection (some h) (some ts) mh = none ↔
      ∀ p, ((find_closest_points h (toMillisU64 ts)).1 = some p ∨
            (find_closest_points h (toMillisU64 ts)).2 = some p) →
        mh.getD 48 * 3600000 < absDeltaMs (toMillisU64 ts) p) ∧
    (∀ p, locationHistorySelection (some h) (some ts) mh = some p →
      ((find_closest_points h (toMillisU64 ts)).1 = some p ∨
       (find_closest_points h (toMillisU64 ts)).2 = some p) ∧
      absDeltaMs (toMillisU64 ts) p ≤ mh.getD 48 * 3600000 ∧
      ∀ q, ((find_closest_points h (toMillisU64 ts)).1 = some q ∨
            (find_closest_points h (toMillisU64 ts)).2 = some q) →
        absDeltaMs (toMillisU64 ts) q ≤ mh.getD 48 * 3600000 →
        absDeltaMs (toMillisU64 ts) p ≤ absDeltaMs (toMillisU64 ts) q) ∧
    (∀ pb pa, (find_closest_points h (toMillisU64 ts)).1 = some pb →
      (find_closest_points h (toMillisU64 ts)).2 = some pa →
      absDeltaMs (toMillisU64 ts) pb ≤ mh.getD 48 * 3600000 →
      absDeltaMs (toMillisU64 ts) pa ≤ mh.getD 48 * 3600000 →
      absDeltaMs (toMillisU64 ts) pb = absDeltaMs (toMillisU64 ts) pa →
      locationHistorySelection (some h) (some ts) mh = some pb) := by
  have hsel : locationHistorySelection (some h) (some ts) mh =
      selectHistoryPoint (find_closest_points h (toMillisU64 ts)).1
        (find_closest_points h (toMillisU64 ts)).2 (toMillisU64 ts)
        (mh.getD 48 * 3600000) := by
    simp only [locationHistorySelection]
    congr 1
    omega
  rw [hsel]
  rcases hfc : find_closest_points h (toMillisU64 ts) with ⟨bopt, aopt⟩
  simp only [hfc]
  rcases bopt with _ | pb <;> rcases aopt with _ | pa
  · refine ⟨⟨fun _ p hp => ?_, fun _ => rfl⟩, ?_, ?_⟩
    · rcases hp with hp | hp <;> exact Option.noConfusion hp
    · intro p hp
      exact absurd hp (by simp [selectHistoryPoint])
    · intro pb pa hb ha
      exact absurd hb (by simp)
  · have hd : pa.timestamp_ms - toMillisU64 ts =
        absDeltaMs (toMillisU64 ts) pa := by
      have := find_closest_after_some h (toMillisU64 ts) pa hs (by rw [hfc])
      rw [absDeltaMs_after this.2.1]
    have hselEq : selectHistoryPoint none (some pa) (toMillisU64 ts)
        (mh.getD 48 * 3600000) =
        (if pa.timestamp_ms - toMillisU64 ts ≤ mh.getD 48 * 3600000 then
          some pa else none) := rfl
    rw [hselEq]
    refine ⟨?_, ?_, ?_⟩
    · constructor
      · intro hnone p hp
        rcases hp with hp | hp
        · exact Option.noConfusion hp
        · have hpe := Option.some_inj.mp hp
          subst hpe
          by_cases hc : pa.timestamp_ms - toMillisU64 ts ≤ mh.getD 48 * 3600000
          · rw [if_pos hc] at hnone
            exact Option.noConfusion hnone
          · omega
      · intro hall
        have := hall pa (Or.inr rfl)
        rw [if_neg (by omega)]
    · intro p hp
      by_cases hc : pa.timestamp_ms - toMillisU64 ts ≤ mh.getD 48 * 3600000
      · rw [if_pos hc] at hp
        have hpe := Option.some_inj.mp hp
        subst hpe
        refine ⟨Or.inr rfl, by omega, ?_⟩
        intro q hq hqb
        rcases hq with hq | hq
        · exact Option.noConfusion hq
        · have hqe := Option.some_inj.mp hq
          subst hqe
          exact Nat.le_refl _
      · rw [if_neg hc] at hp
        exact Option.noConfusion hp
    · intro pb pa2 hb ha
      exact absurd hb (by simp)
  · have hd : toMillisU64 ts - pb.timestamp_ms =
        absDeltaMs (toMillisU64 ts) pb := by
      have := find_closest_before_some h (toMillisU64 ts) pb hs (by rw [hfc])
      rw [absDeltaMs_before this.2.1]
    have hselEq : selectHistoryPoint (some pb) none (toMillisU64 ts)
        (mh.getD 48 * 3600000) =
        (if toMillisU64 ts - pb.timestamp_ms ≤ mh.getD 48 * 3600000 then
          some pb else none) := rfl
    rw [hselEq]
    refine ⟨?_, ?_, ?_⟩
    · constructor
      · intro hnone p hp
        rcases hp with hp | hp
        · have hpe := Option.some_inj.mp hp
          subst hpe
          by_cases hc : toMillisU64 ts - pb.timestamp_ms ≤ mh.getD 48 * 3600000
          · rw [if_pos hc] at hnone
            exact Option.noConfusion hnone
          · omega
        · exact Option.noConfusion hp
      · intro hall
        have := hall pb (Or.inl rfl)
        rw [if_neg (by omega)]
    · intro p hp
      by_cases hc : toMillisU64 ts - pb.timestamp_ms ≤ mh.getD 48 * 3600000
      · rw [if_pos hc] at hp
        have hpe := Option.some_inj.mp hp
        subst hpe
        refine ⟨Or.inl rfl, by omega, ?_⟩
        intro q hq hqb
        rcases hq with hq | hq
        · have hqe := Option.some_inj.mp hq
          subst hqe
          exact Nat.le_refl _
        · exact Option.noConfusion hq
      · rw [if_neg hc] at hp
        exact Option.noConfusion hp
    · intro pb2 pa hb ha
      exact absurd ha (by simp)
  · have hdb : toMillisU64 ts - pb.timestamp_ms =
        absDeltaMs (toMillisU64 ts) pb := by
      have := find_closest_before_some h (toMillisU64 ts) pb hs (by rw [hfc])
      rw [absDeltaMs_before this.2.1]
    have hda : pa.timestamp_ms - toMillisU64 ts =
        absDeltaMs (toMillisU64 ts) pa := by
      have := find_closest_after_some h (toMillisU64 ts) pa hs (by rw [hfc])
      rw [absDeltaMs_after this.2.1]
    have hselEq : selectHistoryPoint (some pb) (some pa) (toMillisU64 ts)
        (mh.getD 48 * 3600000) =
        (if toMillisU64 ts - pb.timestamp_ms ≤ mh.getD 48 * 3600000 ∧
            pa.timestamp_ms - toMillisU64 ts ≤ mh.getD 48 * 3600000 then
          if toMillisU64 ts - pb.timestamp_ms ≤
              pa.timestamp_ms - toMillisU64 ts then some pb else some pa
        else if toMillisU64 ts - pb.timestamp_ms ≤ mh.getD 48 * 3600000 then
          some pb
        else if pa.timestamp_ms - toMillisU64 ts ≤ mh.getD 48 * 3600000 then
          some pa
        else none) := rfl
    rw [hselEq]
    refine ⟨?_, ?_, ?_⟩
    · constructor
      · intro hnone p hp
        have hboth : mh.getD 48 * 3600000 < toMillisU64 ts - pb.timestamp_ms ∧
            mh.getD 48 * 3600000 < pa.timestamp_ms - toMillisU64 ts := by
          by_cases hc1 : toMillisU64 ts - pb.timestamp_ms ≤ mh.getD 48 * 3600000 ∧
              pa.timestamp_ms - toMillisU64 ts ≤ mh.getD 48 * 3600000
          · rw [if_pos hc1] at hnone
            by_cases hc2 : toMillisU64 ts - pb.timestamp_ms ≤
                pa.timestamp_ms - toMillisU64 ts
            · rw [if_pos hc2] at hnone
              exact Option.noConfusion hnone
            · rw [if_neg hc2] at hnone
              exact Option.noConfusion hnone
          · rw [if_neg hc1] at hnone
            by_cases hc2 : toMillisU64 ts - pb.timestamp_ms ≤ mh.getD 48 * 3600000
            · rw [if_pos hc2] at hnone
              exact Option.noConfusion hnone
            · rw [if_neg hc2] at hnone
              by_cases hc3 : pa.timestamp_ms - toMillisU64 ts ≤ mh.getD 48 * 3600000
              · rw [if_pos hc3] at hnone
                exact Option.noConfusion hnone
              · exact ⟨by omega, by omega⟩
        rcases hp with hp | hp
        · have hpe := Option.some_inj.mp hp
          subst hpe
          omega
        · have hpe := Option.some_inj.mp hp
          subst hpe
          omega
      · intro hall
        have h1 := hall pb (Or.inl rfl)
        have h2 := hall pa (Or.inr rfl)
        have hcb : ¬(toMillisU64 ts - pb.timestamp_ms ≤ mh.getD 48 * 3600000) := by omega
        have hca : ¬(pa.timestamp_ms - toMillisU64 ts ≤ mh.getD 48 * 3600000) := by omega
        rw [if_neg (fun hand => hcb hand.1), if_neg hcb, if_neg hca]
    · intro p hp
      by_cases h1 : toMillisU64 ts - pb.timestamp_ms ≤ mh.getD 48 * 3600000 ∧
          pa.timestamp_ms - toMillisU64 ts ≤ mh.getD 48 * 3600000
      · rw [if_pos h1] at hp
        by_cases h2 : toMillisU64 ts - pb.timestamp_ms ≤ pa.timestamp_ms - toMillisU64 ts
        · rw [if_pos h2] at hp
          have hpe := Option.some_inj.mp hp
          subst hpe
          refine ⟨Or.inl rfl, by omega, ?_⟩
          intro q hq hqb
          rcases hq with hq | hq
          · have hqe := Option.some_inj.mp hq
            subst hqe
            exact Nat.le_refl _
          · have hqe := Option.some_inj.mp hq
            subst hqe
            omega
        · rw [if_neg h2] at hp
          have hpe := Option.some_inj.mp hp
          subst hpe
          refine ⟨Or.inr rfl, by omega, ?_⟩
          intro q hq hqb
          rcases hq with hq | hq
          · have hqe := Option.some_inj.mp hq
            subst hqe
            omega
          · have hqe := Option.some_inj.mp hq
            subst hqe
            exact Nat.le_refl _
      · rw [if_neg h1] at hp
        by_cases h2 : toMillisU64 ts - pb.timestamp_ms ≤ mh.getD 48 * 3600000
        · rw [if_pos h2] at hp
          have hpe := Option.some_inj.mp hp
          subst hpe
          refine ⟨Or.inl rfl, by omega, ?_⟩
          intro q hq hqb
          rcases hq with hq | hq
          · have hqe := Option.some_inj.mp hq
            subst hqe
            exact Nat.le_refl _
          · have hqe := Option.some_inj.mp hq
            subst hqe
            omega
        · rw [if_neg h2] at hp
          by_cases h3 : pa.timestamp_ms - toMillisU64 ts ≤ mh.getD 48 * 3600000
          · rw [if_pos h3] at hp
            have hpe := Option.some_inj.mp hp
            subst hpe
            refine ⟨Or.inr rfl, by omega, ?_⟩
            intro q hq hqb
            rcases hq with hq | hq
            · have hqe := Option.some_inj.mp hq
              subst hqe
              omega
            · have hqe := Option.some_inj.mp hq
              subst hqe
              exact Nat.le_refl _
          · rw [if_neg h3] at hp
            exact Option.noConfusion hp
    · intro pb2 pa2 hb2 ha2 hdb2 hda2 heq
      have hbe := Option.some_inj.mp hb2
      subst hbe
      have hae := Option.some_inj.mp ha2
      subst hae
      rw [if_pos (by omega), if_pos (by omega)]

/-- Witness for C1: both candidates sit exactly at the default 48-hour
boundary around the photo instant (1970-01-03 00:00:00 UTC), both are
accepted, and the tie keeps the before candidate. -/
theorem c1_witness :
    locationHistorySelection (some [⟨0, 1, 1⟩, ⟨345600000, 2, 2⟩])
      (some ⟨1970, 1, 3, 0, 0, 0⟩) none = some ⟨0, 1, 1⟩ := by
  have h := (c1_history_selection_correct [⟨0, 1, 1⟩, ⟨345600000, 2, 2⟩]
    ⟨1970, 1, 3, 0, 0, 0⟩ none (by decide) (by decide)).2.2 ⟨0, 1, 1⟩
    ⟨345600000, 2, 2⟩ (by decide) (by decide) (by decide) (by decide)
    (by decide)
  exact h

/-- C3: for every parsed Takeout document, the LocationHistory built by
from_json_file is sorted non-decreasingly by timestamp, whatever the order
of the outer locations and of the nested activity entries; the sorted
sequence is a permutation of the accumulated points, in which each activity
contributes a synthetic point carrying the activity timestamp and the outer
location's coordinates (see buildPoints). -/
theorem c3_from_json_data_sorted (root : TakeoutRoot) :
    tsSorted (from_json_data root) ∧
    (from_json_data root).Perm (buildPoints root) := by
  constructor
  · have hp := @List.sorted_mergeSort LocationPoint
      (fun p q => p.timestamp_ms ≤ q.timestamp_ms)
      (fun a b c hab hbc => by
        simp only [decide_eq_true_eq] at hab hbc ⊢
        omega)
      (fun a b => by
        simp only [Bool.or_eq_true, decide_eq_true_eq]
        omega)
      (buildPoints root)
    unfold tsSorted from_json_data
    exact hp.imp (fun h => by simpa using h)
  · exact List.mergeSort_perm (buildPoints root) _

lemma flatten_map_singleton : ∀ s : List Char,
    (s.map (fun c => [c])).flatten = s := by
  intro s
  induction s with
  | nil => rfl
  | cons c t ih => simp [ih]

lemma scan_eq_render_parse (ctx : MediaContext) : ∀ (fuel : Nat) (s : List Char),
    scanTemplateAux ctx fuel s =
      ((parseSegmentsAux fuel s).map (renderSeg ctx)).flatten := by
  intro fuel
  induction fuel with
  | zero =>
    intro s
    simp only [scanTemplateAux, parseSegmentsAux, List.map_map]
    have : renderSeg ctx ∘ Segment.lit = fun c => [c] := by
      funext c
      rfl
    rw [this, flatten_map_singleton]
  | succ fuel ih =>
    intro s
    cases s with
    | nil => rfl
    | cons c t =>
      by_cases hc : c == '\x7b'
      · rcases hm : matchVar t with _ | ⟨varName, n⟩
        · simp [scanTemplateAux, parseSegmentsAux, hc, hm, renderSeg, ih]
        · simp [scanTemplateAux, parseSegmentsAux, hc, hm, renderSeg, ih]
      · simp [scanTemplateAux, parseSegmentsAux, hc, renderSeg, ih]

/-- C7: for every template string and context, apply_template succeeds (it
always returns ok) and its output is the rendering of the single
context-independent decomposition of the template - each matched placeholder
contributes either its resolved value or the unknown-reference literal, and
the contributed text is appended to the output without being rescanned
(parseSegments depends only on the template, never on substituted text);
an unknown reference always contributes the non-empty literal
brace-unknown-colon-name-brace, never the empty string and never an
error. -/
theorem c7_apply_template_total_single_scan (template : String)
    (ctx : MediaContext) :
    apply_template template ctx = Except.ok (String.mk
      (((parseSegments template.data).map (renderSeg ctx)).flatten)) ∧
    ∀ varName, resolveVariable varName ctx = none →
      renderVar ctx varName = ("\x7bunknown:" ++ varName ++ "\x7d").data ∧
      renderVar ctx varName ≠ [] := by
  constructor
  · unfold apply_template parseSegments
    rw [scan_eq_render_parse]
  · intro varName hres
    unfold renderVar
    rw [hres]
    refine ⟨rfl, ?_⟩
    intro hemp
    have : ("\x7bunknown:" ++ varName ++ "\x7d").data =
        "\x7bunknown:".data ++ (varName.data ++ "\x7d".data) := by
      simp [String.data_append]
    rw [this] at hemp
    simp at hemp

/-- Witness for C7: the unresolvable reference nope renders as the unknown
literal and is non-empty. -/
theorem c7_witness :
    renderVar emptyMediaContext "nope" =
      ("\x7bunknown:" ++ "nope" ++ "\x7d").data ∧
    renderVar emptyMediaContext "nope" ≠ [] :=
  (c7_apply_template_total_single_scan "x" emptyMediaContext).2 "nope" rfl

/-- C8 counterexample: the claim says every field of the space block,
altitude included, resolves; but resolve_variable has no space.altitude arm,
so a context carrying an altitude still expands it to the unknown
literal. -/
theorem c8_counterexample :
    resolveVariable "space.altitude"
      { emptyMediaContext with
          space := { emptySpaceContext with altitude := some 5 } } = none ∧
    apply_template "\x7bspace.altitude\x7d"
      { emptyMediaContext with
          space := { emptySpaceContext with altitude := some 5 } } =
      Except.ok "\x7bunknown:space.altitude\x7d" := by
  constructor
  · rfl
  · rfl

/-- C8 as amended: every space-block reference except altitude resolves to
the corresponding field (lat and lon through the double formatter), while
space.altitude - though a field of the block - resolves to nothing and
expands to the unknown literal. -/
theorem c8_space_fields_resolve (ctx : MediaContext) :
    resolveVariable "space.country" ctx = some ctx.space.country ∧
    resolveVariable "space.country_code" ctx = some ctx.space.country_code ∧
    resolveVariable "space.state" ctx = some ctx.space.state ∧
    resolveVariable "space.city" ctx = some ctx.space.city ∧
    resolveVariable "space.district" ctx = some ctx.space.district ∧
    resolveVariable "space.road" ctx = some ctx.space.road ∧
    resolveVariable "space.lat" ctx = some (fmtF64 ctx.space.lat) ∧
    resolveVariable "space.lon" ctx = some (fmtF64 ctx.space.lon) ∧
    resolveVariable "space.altitude" ctx = none ∧
    apply_template "\x7bspace.altitude\x7d" ctx =
      Except.ok "\x7bunknown:space.altitude\x7d" := by
  refine ⟨rfl, rfl, rfl, rfl, rfl, rfl, rfl, rfl, rfl, rfl⟩

/-- C10 counterexample: the claim says placeholder-shaped text inside the
substituted paths is left as-is, but a destination placeholder contained in
the source path is expanded by the second replace. -/
theorem c10_counterexample :
    buildCustomCommand "echo \x7bsource\x7d" "/a/\x7bdestination\x7d" "/d" =
      "echo /a//d" ∧
    ("echo /a//d" : String) ≠ "echo /a/\x7bdestination\x7d" := by
  constructor
  · rfl
  · decide

/-- C10 as amended: the executed string is the template with every
occurrence of the source placeholder replaced by the source path and then
every occurrence of the destination placeholder replaced - in the result of
the first replacement - by the destination path; hence all placeholder
occurrences are substituted, destination-placeholder text contained in the
source path is expanded, and source-placeholder text contained in the
destination path is left as-is. -/
theorem c10_command_substitution :
    (∀ command source destination : String,
      buildCustomCommand command source destination = String.mk (replaceAll
        (replaceAll command.data "\x7bsource\x7d".data source.data)
        "\x7bdestination\x7d".data destination.data)) ∧
    (∀ destination : String,
      buildCustomCommand "run \x7bsource\x7d" "x\x7bdestination\x7dy"
        destination = "run x" ++ destination ++ "y") ∧
    buildCustomCommand "run \x7bsource\x7d \x7bdestination\x7d" "/s"
      "a\x7bsource\x7db" = "run /s a\x7bsource\x7db" ∧
    buildCustomCommand "\x7bsource\x7d \x7bsource\x7d" "/s" "/d" =
      "/s /s" := by
  refine ⟨fun _ _ _ => rfl, ?_, rfl, rfl⟩
  intro destination
  obtain ⟨l⟩ := destination
  rfl

/-- C9: for every engine, condition and context, evaluate_condition maps a
non-boolean engine result to ok false (as_bool().unwrap_or(false)) and an
engine-level failure (syntax error, unresolved identifier, ...) to an error;
process_rule propagates that error, and the orchestrator - modelled from the
spec, as section 4.6 has no implementation under src/ - treats the errored
rule as non-matching. -/
theorem c9_condition_error_contract
    (engineEval : RhaiScope → String → Except String DynValue)
    (condition : String) (ctx : MediaContext) (rule : Rule) :
    (∀ d, engineEval (buildScope ctx) condition = .ok d → dynAsBool d = none →
      evaluate_condition engineEval condition ctx = .ok false) ∧
    (∀ e, engineEval (buildScope ctx) condition = .error e →
      evaluate_condition engineEval condition ctx =
        .error ("Failed to evaluate condition: " ++ e)) ∧
    (∀ e, evaluate_condition engineEval rule.condition ctx = .error e →
      process_rule engineEval rule ctx = .error e ∧
      ruleErrorTreatedAsNoMatch (process_rule engineEval rule ctx) = none) := by
  refine ⟨?_, ?_, ?_⟩
  · intro d hok hnb
    unfold evaluate_condition
    rw [hok]
    simp [hnb]
  · intro e herr
    unfold evaluate_condition
    rw [herr]
  · intro e herr
    have hpr : process_rule engineEval rule ctx = .error e := by
      unfold process_rule
      rw [herr]
    exact ⟨hpr, by rw [hpr]; rfl⟩

/-- Witness for C9: an engine returning the integer three yields ok false,
and an engine failure makes the rule contribute no match. -/
theorem c9_witness :
    evaluate_condition (fun _ _ => Except.ok (DynValue.int 3)) "1 + 2"
      emptyMediaContext = Except.ok false ∧
    ruleErrorTreatedAsNoMatch (process_rule
      (fun _ _ => Except.error "syntax error")
      ⟨"(", "t", ActionSpec.move⟩ emptyMediaContext) = none := by
  constructor
  · exact (c9_condition_error_contract (fun _ _ => Except.ok (DynValue.int 3))
      "1 + 2" emptyMediaContext ⟨"(", "t", ActionSpec.move⟩).1
      (DynValue.int 3) rfl rfl
  · have h := c9_condition_error_contract
      (fun _ _ => Except.error "syntax error") "(" emptyMediaContext
      ⟨"(", "t", ActionSpec.move⟩
    have he := h.2.1 "syntax error" rfl
    exact (h.2.2 ("Failed to evaluate condition: " ++ "syntax error") he).2

/-- The time block produced by the Rust Default followed by apply_defaults:
yyyy/mm/dd/month_name/weekday take their default literals while hh, min and
ss keep the empty string the Default derive gave them. -/
def defaultedUnknownTime : TimeContext :=
  { yyyy := "unknown", mm := "00", dd := "00", hh := "", min := "", ss := "",
    month_name := "Unknown", weekday := "Unknown", timestamp := none }

lemma toDigitsCore_length_le (base : Nat) : ∀ (fuel n : Nat) (ds : List Char),
    ds.length ≤ (Nat.toDigitsCore base fuel n ds).length := by
  intro fuel
  induction fuel with
  | zero =>
    intro n ds
    exact Nat.le_refl _
  | succ fuel ih =>
    intro n ds
    unfold Nat.toDigitsCore
    dsimp only
    split_ifs with h
    · exact Nat.le_succ _
    · exact Nat.le_trans (Nat.le_succ ds.length)
        (ih (n / base) ((n % base).digitChar :: ds))

lemma toDigits_ne_nil (base n : Nat) : Nat.toDigits base n ≠ [] := by
  unfold Nat.toDigits
  intro h
  have h1 : 1 ≤ (Nat.toDigitsCore base (n + 1) n []).length := by
    unfold Nat.toDigitsCore
    dsimp only
    split_ifs with hz
    · exact Nat.le_refl _
    · exact toDigitsCore_length_le base n (n / base) [(n % base).digitChar]
  rw [h] at h1
  simp at h1

lemma toString_nat_ne_empty (n : Nat) : toString n ≠ "" := by
  intro h
  have hd : Nat.toDigits 10 n = [] := congrArg String.data h
  exact toDigits_ne_nil 10 n hd

lemma string_data_append (a b : String) : (a ++ b).data = a.data ++ b.data :=
  rfl

lemma append_ne_empty_of_left (a b : String) (h : a.data ≠ []) :
    a ++ b ≠ "" := by
  intro he
  have := congrArg String.data he
  rw [string_data_append] at this
  rcases hx : a.data with _ | ⟨c, t⟩
  · exact h hx
  · rw [hx] at this
    exact List.noConfusion this

lemma pad4_ne_empty (n : Nat) : pad4 n ≠ "" := by
  unfold pad4
  split_ifs with h1 h2 h3
  · exact append_ne_empty_of_left _ _ (by decide)
  · exact append_ne_empty_of_left _ _ (by decide)
  · exact append_ne_empty_of_left _ _ (by decide)
  · exact toString_nat_ne_empty n

lemma formatYear_ne_empty (y : Int) : formatYear y ≠ "" := by
  unfold formatYear
  split_ifs with h1 h2
  · exact append_ne_empty_of_left _ _ (by decide)
  · exact append_ne_empty_of_left _ _ (by decide)
  · exact pad4_ne_empty _

lemma createTimeContext_yyyy_ne_empty (dt : DateTimeUtc) :
    (createTimeContext dt).yyyy ≠ "" :=
  formatYear_ne_empty dt.year

/-- The EXIF tag pass writes the time block only through
create_time_context. -/
lemma time_fold_cases (events : List (Option DateTimeUtc)) : ∀ t0,
    (t0 = emptyTimeContext ∨ ∃ dt, t0 = createTimeContext dt) →
    (events.foldl (fun t ev =>
        match ev with
        | some dt => createTimeContext dt
        | none => t) t0 = emptyTimeContext ∨
      ∃ dt, events.foldl (fun t ev =>
        match ev with
        | some dt => createTimeContext dt
        | none => t) t0 = createTimeContext dt) := by
  induction events with
  | nil =>
    intro t0 h
    exact h
  | cons e rest ih =>
    intro t0 h
    rcases e with _ | dt
    · exact ih t0 h
    · exact ih (createTimeContext dt) (Or.inr ⟨dt, rfl⟩)

lemma exif_time_cases (env : ExtractEnv) (ctxe : MediaContext)
    (h : extract_exif_metadata env = some ctxe) :
    ctxe.time = emptyTimeContext ∨
    ∃ dt, ctxe.time = createTimeContext dt := by
  unfold extract_exif_metadata at h
  rw [Option.map_eq_some'] at h
  obtain ⟨e, _, hfe⟩ := h
  subst hfe
  simp only
  apply time_fold_cases
  rcases e.gps with _ | g
  · exact Or.inl rfl
  · exact Or.inl rfl

lemma fallbackDims_parts (env : ExtractEnv) (ctx : MediaContext) :
    (fallbackDims env ctx).time = ctx.time ∧
    (fallbackDims env ctx).space = ctx.space ∧
    (fallbackDims env ctx).type = ctx.type := by
  unfold fallbackDims
  dsimp only
  rcases env.imageDims with _ | ⟨w, hgt⟩
  · split_ifs <;> exact ⟨rfl, rfl, rfl⟩
  · split_ifs <;> exact ⟨rfl, rfl, rfl⟩

lemma fallbackFilenameDate_parts (env : ExtractEnv) (ctx : MediaContext) :
    ((fallbackFilenameDate env ctx).time = ctx.time ∨
      ∃ dt, (fallbackFilenameDate env ctx).time = createTimeContext dt) ∧
    (fallbackFilenameDate env ctx).space = ctx.space ∧
    (fallbackFilenameDate env ctx).type = ctx.type := by
  unfold fallbackFilenameDate
  split_ifs with h1
  · rcases env.path.fileName.bind extract_date_from_filename with _ | dt
    · exact ⟨Or.inl rfl, rfl, rfl⟩
    · exact ⟨Or.inr ⟨dt, rfl⟩, rfl, rfl⟩
  · exact ⟨Or.inl rfl, rfl, rfl⟩

lemma fallbackFsCreated_parts (env : ExtractEnv) (ctx : MediaContext) :
    ((fallbackFsCreated env ctx).time = ctx.time ∨
      ∃ dt, (fallbackFsCreated env ctx).time = createTimeContext dt) ∧
    (fallbackFsCreated env ctx).space = ctx.space ∧
    (fallbackFsCreated env ctx).type = ctx.type := by
  unfold fallbackFsCreated
  split_ifs with h1
  · rcases env.fsCreated with _ | dt
    · exact ⟨Or.inl rfl, rfl, rfl⟩
    · exact ⟨Or.inr ⟨dt, rfl⟩, rfl, rfl⟩
  · exact ⟨Or.inl rfl, rfl, rfl⟩

lemma fallbackLocationHistory_time (env : ExtractEnv)
    (hist : Option (List LocationPoint)) (maxHours : Option Nat)
    (ctx : MediaContext) :
    (fallbackLocationHistory env hist maxHours ctx).time = ctx.time := by
  unfold fallbackLocationHistory
  split_ifs with h1
  · rcases locationHistorySelection hist ctx.time.timestamp maxHours
      with _ | p
    · rfl
    · rfl
  · rfl

lemma apply_defaults_time_cases (ctx : MediaContext) :
    (ctx.time.yyyy = "" ∧ (apply_defaults ctx).time =
      { ctx.time with
          yyyy := "unknown"
          mm := "00"
          dd := "00"
          month_name := "Unknown"
          weekday := "Unknown" }) ∨
    (ctx.time.yyyy ≠ "" ∧ (apply_defaults ctx).time = ctx.time) := by
  unfold apply_defaults
  by_cases h1 : ctx.time.yyyy = ""
  · rw [if_pos h1]
    left
    refine ⟨h1, ?_⟩
    dsimp only
    split_ifs with h2
    · rfl
    · rfl
  · rw [if_neg h1]
    right
    refine ⟨h1, ?_⟩
    dsimp only
    split_ifs with h2
    · rfl
    · rfl

lemma extract_time_pre_defaults (env : ExtractEnv)
    (hist : Option (List LocationPoint)) (maxHours : Option Nat) :
    ∃ preCtx, extract_metadata_with_location_history env hist maxHours =
      apply_defaults preCtx ∧
      (preCtx.time = emptyTimeContext ∨
        ∃ dt, preCtx.time = createTimeContext dt) := by
  unfold extract_metadata_with_location_history
  refine ⟨_, rfl, ?_⟩
  have hbase : ∀ merged : MediaContext,
      (merged.time = emptyTimeContext ∨
        ∃ dt, merged.time = createTimeContext dt) →
      ((apply_fallbacks env hist maxHours merged).time = emptyTimeContext ∨
        ∃ dt, (apply_fallbacks env hist maxHours merged).time =
          createTimeContext dt) := by
    intro merged hm
    unfold apply_fallbacks
    rw [fallbackLocationHistory_time]
    rcases (fallbackFsCreated_parts env _).1 with h3 | ⟨dt, h3⟩
    · rw [h3]
      rcases (fallbackFilenameDate_parts env _).1 with h2 | ⟨dt, h2⟩
      · rw [h2, (fallbackDims_parts env _).1]
        exact hm
      · exact Or.inr ⟨dt, h2⟩
    · exact Or.inr ⟨dt, h3⟩
  rcases hex : extract_exif_metadata env with _ | ctxe
  · simp only [hex]
    exact hbase _ (Or.inl rfl)
  · simp only [hex]
    exact hbase _ (exif_time_cases env ctxe hex)

/-- C4 counterexample: with no time source at all the emitted hh string is
the empty string, not the documented 00/unknown defaults, while the
timestamp is indeed absent. -/
theorem c4_counterexample :
    (extract_metadata_with_location_history
      { path := ⟨none, none, none, none, 0⟩, mime := none, exif := none,
        imageDims := none, fsCreated := none,
        geoDb := fun _ _ => ⟨"X", "Y", "Z"⟩ } none none).time.timestamp =
      none ∧
    (extract_metadata_with_location_history
      { path := ⟨none, none, none, none, 0⟩, mime := none, exif := none,
        imageDims := none, fsCreated := none,
        geoDb := fun _ _ => ⟨"X", "Y", "Z"⟩ } none none).time.hh ≠ "00" ∧
    (extract_metadata_with_location_history
      { path := ⟨none, none, none, none, 0⟩, mime := none, exif := none,
        imageDims := none, fsCreated := none,
        geoDb := fun _ _ => ⟨"X", "Y", "Z"⟩ } none none).time.hh ≠
      "unknown" ∧
    (extract_metadata_with_location_history
      { path := ⟨none, none, none, none, 0⟩, mime := none, exif := none,
        imageDims := none, fsCreated := none,
        geoDb := fun _ _ => ⟨"X", "Y", "Z"⟩ } none none).time.hh ≠
      "Unknown" := by
  refine ⟨rfl, ?_, ?_, ?_⟩ <;> decide

/-- C4 as amended: every context emitted by the extractor carries either a
present timestamp with the whole time block equal to create_time_context of
that instant (all decomposed strings derived from it in UTC), or an absent
timestamp with yyyy = unknown, mm = dd = 00, month_name = weekday = Unknown
while hh, min and ss remain empty strings (apply_defaults does not set
them). -/
theorem c4_time_dichotomy (env : ExtractEnv)
    (hist : Option (List LocationPoint)) (maxHours : Option Nat) :
    (∃ dt, (extract_metadata_with_location_history env hist maxHours).time =
        createTimeContext dt ∧
      (extract_metadata_with_location_history env hist
        maxHours).time.timestamp = some dt) ∨
    ((extract_metadata_with_location_history env hist maxHours).time =
        defaultedUnknownTime ∧
      (extract_metadata_with_location_history env hist
        maxHours).time.timestamp = none) := by
  obtain ⟨preCtx, heq, hcases⟩ := extract_time_pre_defaults env hist maxHours
  rw [heq]
  rcases hcases with hempty | ⟨dt, hdt⟩
  · right
    rcases apply_defaults_time_cases preCtx with ⟨_, hset⟩ | ⟨hne, _⟩
    · rw [hset, hempty]
      exact ⟨rfl, rfl⟩
    · rw [hempty] at hne
      exact absurd rfl hne
  · left
    rcases apply_defaults_time_cases preCtx with ⟨hz, _⟩ | ⟨_, hkeep⟩
    · rw [hdt] at hz
      exact absurd hz (createTimeContext_yyyy_ne_empty dt)
    · rw [hkeep, hdt]
      exact ⟨dt, rfl, rfl⟩

lemma apply_defaults_space (ctx : MediaContext) :
    (apply_defaults ctx).space =
      (if ctx.space.city = "" then
        { ctx.space with city := "unknown", country := "unknown" }
      else ctx.space) := by
  unfold apply_defaults
  by_cases h1 : ctx.time.yyyy = "" <;>
    by_cases h2 : ctx.space.city = "" <;>
    simp only [h1, h2, if_true, if_false, if_pos, if_neg, not_false_iff]

lemma exif_space_cases (env : ExtractEnv) (ctxe : MediaContext)
    (h : extract_exif_metadata env = some ctxe) :
    ctxe.space = emptySpaceContext ∨
    ∃ la lo, ctxe.space.city = (env.geoDb la lo).name ∧
      ctxe.space.country = (env.geoDb la lo).cc := by
  unfold extract_exif_metadata at h
  rw [Option.map_eq_some'] at h
  obtain ⟨e, _, hfe⟩ := h
  subst hfe
  rcases e.gps with _ | g
  · exact Or.inl rfl
  · right
    exact ⟨_, _, rfl, rfl⟩

lemma fallbackLocationHistory_space_cases (env : ExtractEnv)
    (hist : Option (List LocationPoint)) (maxHours : Option Nat)
    (ctx : MediaContext) :
    (fallbackLocationHistory env hist maxHours ctx).space = ctx.space ∨
    ∃ la lo, (fallbackLocationHistory env hist maxHours ctx).space.city =
        (env.geoDb la lo).name ∧
      (fallbackLocationHistory env hist maxHours ctx).space.country =
        (env.geoDb la lo).cc := by
  unfold fallbackLocationHistory
  split_ifs with h1
  · rcases locationHistorySelection hist ctx.time.timestamp maxHours
      with _ | p
    · exact Or.inl rfl
    · right
      exact ⟨_, _, rfl, rfl⟩
  · exact Or.inl rfl

lemma extract_space_pre_defaults (env : ExtractEnv)
    (hist : Option (List LocationPoint)) (maxHours : Option Nat) :
    ∃ preCtx, extract_metadata_with_location_history env hist maxHours =
      apply_defaults preCtx ∧
      (preCtx.space = emptySpaceContext ∨
        ∃ la lo, preCtx.space.city = (env.geoDb la lo).name ∧
          preCtx.space.country = (env.geoDb la lo).cc) := by
  unfold extract_metadata_with_location_history
  refine ⟨_, rfl, ?_⟩
  have hstep : ∀ merged : MediaContext,
      (merged.space = emptySpaceContext ∨
        ∃ la lo, merged.space.city = (env.geoDb la lo).name ∧
          merged.space.country = (env.geoDb la lo).cc) →
      ((apply_fallbacks env hist maxHours merged).space = emptySpaceContext ∨
        ∃ la lo, (apply_fallbacks env hist maxHours merged).space.city =
            (env.geoDb la lo).name ∧
          (apply_fallbacks env hist maxHours merged).space.country =
            (env.geoDb la lo).cc) := by
    intro merged hm
    unfold apply_fallbacks
    rcases fallbackLocationHistory_space_cases env hist maxHours
        (fallbackFsCreated env (fallbackFilenameDate env
          (fallbackDims env merged))) with h4 | ⟨la, lo, h4⟩
    · rw [h4, (fallbackFsCreated_parts env _).2.1,
        (fallbackFilenameDate_parts env _).2.1,
        (fallbackDims_parts env _).2.1]
      exact hm
    · exact Or.inr ⟨la, lo, h4⟩
  rcases hex : extract_exif_metadata env with _ | ctxe
  · simp only [hex]
    exact hstep _ (Or.inl rfl)
  · simp only [hex]
    exact hstep _ (exif_space_cases env ctxe hex)

lemma fallbackLocationHistory_space_of_none (env : ExtractEnv)
    (maxHours : Option Nat) (ctx : MediaContext) :
    (fallbackLocationHistory env none maxHours ctx).space = ctx.space := by
  unfold fallbackLocationHistory
  split_ifs with h1
  · rfl
  · rfl

lemma exif_space_of_no_gps (env : ExtractEnv) (ctxe : MediaContext)
    (h : extract_exif_metadata env = some ctxe)
    (hg : ∀ e, env.exif = some e → e.gps = none) :
    ctxe.space = emptySpaceContext := by
  unfold extract_exif_metadata at h
  rw [Option.map_eq_some'] at h
  obtain ⟨e, he, hfe⟩ := h
  subst hfe
  rw [hg e he]
  rfl

/-- The space block the C5 counterexample run produces. -/
def spaceC5 : SpaceContext where
  country := "GH"
  country_code := "GH"
  state := "Western"
  city := "Takoradi"
  district := ""
  road := ""
  lat := 0
  lon := 0
  altitude := some 0

/-- The context the C5 counterexample EXIF phase produces. -/
def ctxC5e : MediaContext where
  time := emptyTimeContext
  space := spaceC5
  source := emptySourceContext
  type := ""
  meta := []
  special := emptySpecialContext

/-- Environment of the C5 counterexample: an EXIF GPS block carrying exactly
(0deg 0min 0sec, 0deg 0min 0sec) and a geocoder database answering with a
real city. -/
def envC5 : ExtractEnv where
  path := ⟨none, none, none, none, 0⟩
  mime := none
  exif := some { gps := some ⟨(⟨0, 1⟩, ⟨0, 1⟩, ⟨0, 1⟩), 'N', (⟨0, 1⟩, ⟨0, 1⟩, ⟨0, 1⟩), 'E', ⟨0, 1⟩⟩, timeEvents := [], metaEntries := [] }
  imageDims := none
  fsCreated := none
  geoDb := fun _ _ => ⟨"Takoradi", "GH", "Western"⟩

/-- C5 counterexample: a file whose EXIF GPS block carries exactly
(0deg, 0deg) - all rationals zero - keeps lat = lon = 0.0 while the (total)
reverse geocoder still fills in the nearest city, so the two sides of the
claimed equivalence disagree. -/
theorem c5_counterexample :
    (extract_metadata_with_location_history envC5 none none).space.lat = 0 ∧
    (extract_metadata_with_location_history envC5 none none).space.lon = 0 ∧
    ¬((extract_metadata_with_location_history envC5 none
        none).space.city = "unknown" ∧
      (extract_metadata_with_location_history envC5 none
        none).space.country = "unknown") := by
  have hconv : convert_gps_coordinate (⟨0, 1⟩, ⟨0, 1⟩, ⟨0, 1⟩) false = 0 := by
    simp [convert_gps_coordinate]
  have hN : (('N' == 'S') : Bool) = false := by decide
  have hW : (('E' == 'W') : Bool) = false := by decide
  have hE : extract_exif_metadata envC5 = some ctxC5e := by
    simp [extract_exif_metadata, envC5, reverse_geocode, emptySpaceContext,
      emptyMediaContext, emptyTimeContext, emptySourceContext,
      emptySpecialContext, hN, hW, hconv, ctxC5e, spaceC5]
  have hsp : (extract_metadata_with_location_history envC5 none
      none).space = spaceC5 := by
    unfold extract_metadata_with_location_history
    rw [hE]
    unfold apply_fallbacks
    rw [apply_defaults_space, fallbackLocationHistory_space_of_none,
      (fallbackFsCreated_parts envC5 _).2.1,
      (fallbackFilenameDate_parts envC5 _).2.1,
      (fallbackDims_parts envC5 _).2.1]
    rw [if_neg (by decide)]
    rfl
  rw [hsp]
  exact ⟨rfl, rfl, by decide⟩

/-- C5 as amended: under a geocoder database whose records always carry a
non-empty city name different from the literal unknown (section 4.2 calls
the adapter infallible and populated), city = country = unknown on an
emitted context still implies lat = lon = 0.0; and when no coordinate
source is available at all (no EXIF GPS, no history) the emitted context has
lat = lon = 0.0 and city = country = unknown. The converse direction of the
original claim fails when a source yields exactly (0.0, 0.0), as the
counterexample shows. -/
theorem c5_unknown_names_imply_zero_coords (env : ExtractEnv)
    (hist : Option (List LocationPoint)) (maxHours : Option Nat)
    (hgeo : ∀ la lo, (env.geoDb la lo).name ≠ "" ∧
      (env.geoDb la lo).name ≠ "unknown") :
    (((extract_metadata_with_location_history env hist maxHours).space.city =
        "unknown" ∧
      (extract_metadata_with_location_history env hist
        maxHours).space.country = "unknown") →
      ((extract_metadata_with_location_history env hist maxHours).space.lat =
        0 ∧
      (extract_metadata_with_location_history env hist maxHours).space.lon =
        0)) ∧
    ((∀ e, env.exif = some e → e.gps = none) → hist = none →
      ((extract_metadata_with_location_history env hist maxHours).space.lat =
        0 ∧
      (extract_metadata_with_location_history env hist maxHours).space.lon =
        0 ∧
      (extract_metadata_with_location_history env hist
        maxHours).space.city = "unknown" ∧
      (extract_metadata_with_location_history env hist
        maxHours).space.country = "unknown")) := by
  constructor
  · intro hcity
    obtain ⟨preCtx, heq, hcases⟩ :=
      extract_space_pre_defaults env hist maxHours
    rw [heq] at hcity ⊢
    rw [apply_defaults_space] at hcity ⊢
    rcases hcases with hempty | ⟨la, lo, hc, _⟩
    · rw [hempty]
      exact ⟨rfl, rfl⟩
    · by_cases hblank : preCtx.space.city = ""
      · rw [hblank] at hc
        exact absurd hc.symm (hgeo la lo).1
      · rw [if_neg hblank] at hcity
        rw [hc] at hcity
        exact absurd hcity.1 (hgeo la lo).2
  · intro hgps hhist
    subst hhist
    have hspace : ∀ merged : MediaContext, merged.space = emptySpaceContext →
        (apply_fallbacks env none maxHours merged).space =
          emptySpaceContext := by
      intro merged hm
      unfold apply_fallbacks
      rw [fallbackLocationHistory_space_of_none,
        (fallbackFsCreated_parts env _).2.1,
        (fallbackFilenameDate_parts env _).2.1,
        (fallbackDims_parts env _).2.1, hm]
    have hpre : ∃ preCtx,
        extract_metadata_with_location_history env none maxHours =
          apply_defaults preCtx ∧ preCtx.space = emptySpaceContext := by
      unfold extract_metadata_with_location_history
      refine ⟨_, rfl, ?_⟩
      rcases hex : extract_exif_metadata env with _ | ctxe
      · simp only [hex]
        exact hspace _ rfl
      · simp only [hex]
        exact hspace _ (exif_space_of_no_gps env ctxe hex hgps)
    obtain ⟨preCtx, heq, hempty⟩ := hpre
    rw [heq, apply_defaults_space, hempty]
    exact ⟨rfl, rfl, rfl, rfl⟩

/-- Environment of the C5 witness: no EXIF, no history, a well-formed
geocoder database. -/
def envC5w : ExtractEnv where
  path := ⟨none, none, none, none, 0⟩
  mime := none
  exif := none
  imageDims := none
  fsCreated := none
  geoDb := fun _ _ => ⟨"Accra", "GH", "Greater Accra"⟩

/-- Witness for C5: a run with no EXIF data, no history and a well-formed
geocoder database lands in the all-unknown zero-coordinate state. -/
theorem c5_witness :
    (extract_metadata_with_location_history envC5w none none).space.lat =
      0 ∧
    (extract_metadata_with_location_history envC5w none none).space.lon =
      0 ∧
    (extract_metadata_with_location_history envC5w none none).space.city =
      "unknown" ∧
    (extract_metadata_with_location_history envC5w none
      none).space.country = "unknown" := by
  refine (c5_unknown_names_imply_zero_coords envC5w none none ?_).2 ?_ rfl
  · intro la lo
    constructor <;> simp [envC5w]
  · intro e he
    exact Option.noConfusion he

lemma try8_eq_none_of_length_ne (w : List Char) (h : w.length ≠ 8) :
    try8 w = none := by
  unfold try8
  rw [if_neg]
  intro hand
  exact h hand.1

lemma scan8_eq_none_iff : ∀ l : List Char,
    scan8 l = none ↔ ∀ i, try8 ((l.drop i).take 8) = none := by
  intro l
  induction l with
  | nil =>
    constructor
    · intro _ i
      rw [List.drop_nil, List.take_nil]
      exact try8_eq_none_of_length_ne [] (by decide)
    · intro _
      rfl
  | cons c rest ih =>
    by_cases h8 : 8 ≤ (c :: rest).length
    · rcases htry : try8 ((c :: rest).take 8) with _ | dt
      · have hstep : scan8 (c :: rest) = scan8 rest := by
          show (if 8 ≤ (c :: rest).length then
            match try8 ((c :: rest).take 8) with
            | some dt => some dt
            | none => scan8 rest
          else none) = scan8 rest
          rw [if_pos h8, htry]
        rw [hstep, ih]
        constructor
        · intro hall i
          cases i with
          | zero => exact htry
          | succ j => exact hall j
        · intro hall i
          have := hall (i + 1)
          simpa using this
      · have hstep : scan8 (c :: rest) = some dt := by
          show (if 8 ≤ (c :: rest).length then
            match try8 ((c :: rest).take 8) with
            | some dt => some dt
            | none => scan8 rest
          else none) = some dt
          rw [if_pos h8, htry]
        rw [hstep]
        constructor
        · intro h
          exact Option.noConfusion h
        · intro hall
          have := hall 0
          rw [List.drop_zero] at this
          rw [htry] at this
          exact Option.noConfusion this
    · have hstep : scan8 (c :: rest) = none := by
        show (if 8 ≤ (c :: rest).length then
          match try8 ((c :: rest).take 8) with
          | some dt => some dt
          | none => scan8 rest
        else none) = none
        rw [if_neg h8]
      rw [hstep]
      constructor
      · intro _ i
        apply try8_eq_none_of_length_ne
        have : ((c :: rest).drop i).length ≤ (c :: rest).length := by
          rw [List.length_drop]
          omega
        rw [List.length_take]
        omega
      · intro _
        rfl

lemma scan8_some_window (dt : DateTimeUtc) : ∀ l : List Char,
    scan8 l = some dt →
    ∃ i, i < l.length ∧ try8 ((l.drop i).take 8) = some dt := by
  intro l
  induction l with
  | nil =>
    intro h
    exact Option.noConfusion h
  | cons c rest ih =>
    intro h
    by_cases h8 : 8 ≤ (c :: rest).length
    · rcases htry : try8 ((c :: rest).take 8) with _ | dt2
      · have hstep : scan8 (c :: rest) = scan8 rest := by
          show (if 8 ≤ (c :: rest).length then
            match try8 ((c :: rest).take 8) with
            | some dt => some dt
            | none => scan8 rest
          else none) = scan8 rest
          rw [if_pos h8, htry]
        rw [hstep] at h
        obtain ⟨i, hi, hw⟩ := ih h
        exact ⟨i + 1, by simpa using Nat.succ_lt_succ hi, hw⟩
      · have hstep : scan8 (c :: rest) = some dt2 := by
          show (if 8 ≤ (c :: rest).length then
            match try8 ((c :: rest).take 8) with
            | some dt => some dt
            | none => scan8 rest
          else none) = some dt2
          rw [if_pos h8, htry]
        rw [hstep] at h
        injection h with h
        subst h
        exact ⟨0, by simp, by simpa using htry⟩
    · have hstep : scan8 (c :: rest) = none := by
        show (if 8 ≤ (c :: rest).length then
          match try8 ((c :: rest).take 8) with
          | some dt => some dt
          | none => scan8 rest
        else none) = none
        rw [if_neg h8]
      rw [hstep] at h
      exact Option.noConfusion h

lemma specHas8_eq_scan8_isSome (l : List Char) :
    specHas8DigitDate l = (scan8 l).isSome := by
  rcases hscan : scan8 l with _ | dt
  · rw [scan8_eq_none_iff] at hscan
    simp only [Option.isSome_none]
    unfold specHas8DigitDate
    rw [List.any_eq_false]
    intro i _
    rw [hscan i]
    simp
  · simp only [Option.isSome_some]
    unfold specHas8DigitDate
    rw [List.any_eq_true]
    obtain ⟨i, hi, hw⟩ := scan8_some_window dt l hscan
    refine ⟨i, List.mem_range.mpr hi, ?_⟩
    rw [hw]
    rfl

lemma dateFromYmd_props (y : Int) (m d : Nat) (dt : DateTimeUtc)
    (h : dateFromYmd y m d = some dt) :
    1900 ≤ dt.year ∧ dt.year ≤ 2100 ∧ 1 ≤ dt.month ∧ dt.month ≤ 12 ∧
    1 ≤ dt.day ∧ dt.day ≤ 31 ∧ validDate dt.year dt.month dt.day = true ∧
    dt.hour = 0 ∧ dt.minute = 0 ∧ dt.second = 0 := by
  unfold dateFromYmd at h
  split_ifs at h with h1 h2
  · injection h with h
    subst h
    exact ⟨h1.1, h1.2.1, h1.2.2.1, h1.2.2.2.1, h1.2.2.2.2.1, h1.2.2.2.2.2,
      h2, rfl, rfl, rfl⟩

lemma scan8_some_props (dt : DateTimeUtc) : ∀ l : List Char,
    scan8 l = some dt → ∃ y m d, dateFromYmd y m d = some dt := by
  intro l
  induction l with
  | nil =>
    intro h
    exact Option.noConfusion h
  | cons c rest ih =>
    intro h
    by_cases h8 : 8 ≤ (c :: rest).length
    · rcases htry : try8 ((c :: rest).take 8) with _ | dt2
      · have hstep : scan8 (c :: rest) = scan8 rest := by
          show (if 8 ≤ (c :: rest).length then
            match try8 ((c :: rest).take 8) with
            | some dt => some dt
            | none => scan8 rest
          else none) = scan8 rest
          rw [if_pos h8, htry]
        rw [hstep] at h
        exact ih h
      · have hstep : scan8 (c :: rest) = some dt2 := by
          show (if 8 ≤ (c :: rest).length then
            match try8 ((c :: rest).take 8) with
            | some dt => some dt
            | none => scan8 rest
          else none) = some dt2
          rw [if_pos h8, htry]
        rw [hstep] at h
        injection h with h
        subst h
        unfold try8 at htry
        by_cases hg : ((c :: rest).take 8).length = 8 ∧
            ((c :: rest).take 8).all Char.isDigit
        · rw [if_pos hg] at htry
          exact ⟨_, _, _, htry⟩
        · rw [if_neg hg] at htry
          exact Option.noConfusion htry
    · have hstep : scan8 (c :: rest) = none := by
        show (if 8 ≤ (c :: rest).length then
          match try8 ((c :: rest).take 8) with
          | some dt => some dt
          | none => scan8 rest
        else none) = none
        rw [if_neg h8]
      rw [hstep] at h
      exact Option.noConfusion h

lemma dashDate_some_props (s : String) (dt : DateTimeUtc)
    (h : dashDate s = some dt) : ∃ y m d, dateFromYmd y m d = some dt := by
  unfold dashDate at h
  split_ifs at h with hc
  · rcases hsp : splitChars (fun c => c == '-' || c == ' ' || c == '.') s.data
      with _ | ⟨p0, rest0⟩
    · rw [hsp] at h
      exact Option.noConfusion h
    · rcases rest0 with _ | ⟨p1, rest1⟩
      · rw [hsp] at h
        exact Option.noConfusion h
      · rcases rest1 with _ | ⟨p2, rest2⟩
        · rw [hsp] at h
          exact Option.noConfusion h
        · rw [hsp] at h
          simp only at h
          rcases hy : parseI32 (String.mk p0) with _ | y <;> rw [hy] at h
          · exact Option.noConfusion h
          · rcases hm : parseU32 (String.mk p1) with _ | m <;> rw [hm] at h
            · exact Option.noConfusion h
            · rcases hd : parseU32 (String.mk p2) with _ | d <;> rw [hd] at h
              · exact Option.noConfusion h
              · exact ⟨y, m, d, h⟩

lemma fallbackFilenameDate_pos (env : ExtractEnv) (ctx : MediaContext)
    (dt : DateTimeUtc) (h1 : ctx.time.timestamp = none)
    (h2 : ctx.type = "video")
    (h3 : env.path.fileName.bind extract_date_from_filename = some dt) :
    fallbackFilenameDate env ctx = { ctx with time := createTimeContext dt } := by
  unfold fallbackFilenameDate
  rw [if_pos ⟨h1, h2⟩, h3]

lemma fallbackFsCreated_of_timestamp_some (env : ExtractEnv)
    (ctx : MediaContext) (dt : DateTimeUtc)
    (h : ctx.time.timestamp = some dt) :
    fallbackFsCreated env ctx = ctx := by
  unfold fallbackFsCreated
  rw [if_neg]
  rw [h]
  intro hcon
  exact Option.noConfusion hcon

/-- C6 counterexample: the basename 2018.01.20.mp4 matches the claimed
dot-separated prefix pattern YYYY.MM.DD with a valid in-range date, yet the
code derives no date from it (the separator branch is gated on the presence
of a minus sign), and a video with that basename and no other time source
ends with no timestamp. -/
theorem c6_counterexample :
    specClaimFilenameDate "2018.01.20.mp4" = true ∧
    extract_date_from_filename "2018.01.20.mp4" = none ∧
    (extract_metadata_with_location_history
      { path := ⟨none, none, none, some "2018.01.20.mp4", 0⟩
        mime := some "video/mp4"
        exif := none
        imageDims := none
        fsCreated := none
        geoDb := fun _ _ => ⟨"X", "Y", "Z"⟩ } none none).time.timestamp =
      none := by
  refine ⟨by decide, by decide, by decide⟩

/-- C6 as amended: extract_date_from_filename succeeds exactly when the
basename has an eight-consecutive-digit window forming a valid in-range
YYYYMMDD date, or it contains a minus sign and splitting the whole basename
on minus, space and dot yields at least three fields whose first three parse
(Rust integer parsing, so a leading sign is tolerated) as a valid in-range
date; any produced instant has year in [1900, 2100], a valid month and day,
and zeroed time-of-day components in UTC; and a video with no EXIF-phase
timestamp whose basename yields a date gets exactly that midnight instant
as its whole time block. -/
theorem c6_filename_date_characterized :
    (∀ s : String,
      (extract_date_from_filename s).isSome = amendedFilenameDate s) ∧
    (∀ (s : String) (dt : DateTimeUtc), extract_date_from_filename s =
        some dt →
      1900 ≤ dt.year ∧ dt.year ≤ 2100 ∧ 1 ≤ dt.month ∧ dt.month ≤ 12 ∧
      1 ≤ dt.day ∧ dt.day ≤ 31 ∧ validDate dt.year dt.month dt.day = true ∧
      dt.hour = 0 ∧ dt.minute = 0 ∧ dt.second = 0) ∧
    (∀ (env : ExtractEnv) (hist : Option (List LocationPoint))
        (maxHours : Option Nat) (dt : DateTimeUtc),
      detect_media_type env.mime = "video" →
      timeAfterExifPhase env = none →
      env.path.fileName.bind extract_date_from_filename = some dt →
      (extract_metadata_with_location_history env hist maxHours).time =
        createTimeContext dt) := by
  refine ⟨?_, ?_, ?_⟩
  · intro s
    unfold extract_date_from_filename amendedFilenameDate
    rw [specHas8_eq_scan8_isSome]
    rcases hscan : scan8 s.data with _ | dt
    · simp only [Option.isSome_none, Bool.false_or]
      unfold dashDate
      by_cases hc : s.data.contains '-'
      · rw [if_pos hc, hc, Bool.true_and]
        rcases hsp : splitChars (fun c => c == '-' || c == ' ' || c == '.')
            s.data with _ | ⟨p0, rest0⟩
        · rfl
        · rcases rest0 with _ | ⟨p1, rest1⟩
          · rfl
          · rcases rest1 with _ | ⟨p2, rest2⟩
            · rfl
            · simp only
              rcases parseI32 (String.mk p0) with _ | y
              · rfl
              · rcases parseU32 (String.mk p1) with _ | m
                · rfl
                · rcases parseU32 (String.mk p2) with _ | d
                  · rfl
                  · rfl
      · rw [if_neg hc]
        rw [Bool.not_eq_true] at hc
        rw [hc, Bool.false_and]
        rfl
    · rfl
  · intro s dt h
    unfold extract_date_from_filename at h
    rcases hscan : scan8 s.data with _ | dt2 <;> rw [hscan] at h
    · obtain ⟨y, m, d, hy⟩ := dashDate_some_props s dt h
      exact dateFromYmd_props y m d dt hy
    · injection h with h
      subst h
      obtain ⟨y, m, d, hy⟩ := scan8_some_props dt2 s.data hscan
      exact dateFromYmd_props y m d dt2 hy
  · intro env hist maxHours dt hvideo hexif hdate
    unfold extract_metadata_with_location_history
    have hmerged : ∀ merged : MediaContext,
        merged.time.timestamp = none → merged.type = "video" →
        (apply_defaults (apply_fallbacks env hist maxHours merged)).time =
          createTimeContext dt := by
      intro merged hts htype
      unfold apply_fallbacks
      rw [fallbackFilenameDate_pos env (fallbackDims env merged) dt
        (by rw [(fallbackDims_parts env merged).1, hts])
        (by rw [(fallbackDims_parts env merged).2.2, htype]) hdate]
      rw [fallbackFsCreated_of_timestamp_some env _ dt rfl]
      have htime : (fallbackLocationHistory env hist maxHours
          { fallbackDims env merged with
            time := createTimeContext dt }).time = createTimeContext dt :=
        fallbackLocationHistory_time env hist maxHours _
      rcases apply_defaults_time_cases (fallbackLocationHistory env hist
          maxHours { fallbackDims env merged with
            time := createTimeContext dt }) with ⟨hz, _⟩ | ⟨_, hkeep⟩
      · rw [htime] at hz
        exact absurd hz (createTimeContext_yyyy_ne_empty dt)
      · rw [hkeep, htime]
    rcases hex : extract_exif_metadata env with _ | ctxe
    · simp only [hex]
      apply hmerged _ rfl
      exact hvideo
    · simp only [hex]
      apply hmerged
      · show ctxe.time.timestamp = none
        unfold timeAfterExifPhase at hexif
        rw [hex] at hexif
        exact hexif
      · exact hvideo

/-- Environment of the C6 witness: a video named
VID_20180120_185352.mp4 with no EXIF. -/
def envC6w : ExtractEnv where
  path := ⟨none, none, none, some "VID_20180120_185352.mp4", 0⟩
  mime := some "video/mp4"
  exif := none
  imageDims := none
  fsCreated := none
  geoDb := fun _ _ => ⟨"X", "Y", "Z"⟩

/-- Witness for C6: the video basename VID_20180120_185352.mp4 yields
midnight 2018-01-20 UTC as the whole time block. -/
theorem c6_witness :
    (extract_metadata_with_location_history envC6w none none).time =
      createTimeContext ⟨2018, 1, 20, 0, 0, 0⟩ :=
  c6_filename_date_characterized.2.2 envC6w none none ⟨2018, 1, 20, 0, 0, 0⟩
    (by decide) rfl (by decide)

end Monana
